import Mathlib

/-!
Verification of the wasi-otel conversion layer (crates/wasi-otel/src/conversions.rs
and crates/wasi-otel/src/common_conversions.rs): a shallow embedding of the
guest (WASI) telemetry schema, the host (OpenTelemetry SDK) schema, and the
conversion functions between them, together with theorems about the
conversions' behaviour.

Modelling conventions:
- Rust `u64`, `u32`, `u8` fields are modelled as `Nat`; signed integers as
  `Int`.  Where a claim depends on the machine width (`u128` trace ids,
  `u64` span ids, `u8` trace flags) the bound appears as an explicit
  hypothesis or an explicit `2 ^ w` check in the definition, mirroring the
  overflow behaviour of the Rust code.
- `f64` values are never inspected arithmetically by the conversion layer,
  only copied; they are modelled as opaque 64-bit patterns (`F64`, a
  wrapped `Nat`), so equality is bit-for-bit equality.
- A Rust abort (`expect` on a failed `try_into`, or the abort arm of the
  `From<MetricNumber>` projections) is modelled by returning `none`; a
  conversion that cannot abort is a plain total function.
- `SystemTime` is modelled as nanoseconds since the Unix epoch (`Nat`).
- Library functions from the `opentelemetry` crates that the source calls
  are embedded from their actual implementations:
  `TraceId::from_hex`/`SpanId::from_hex` are `u128::from_str_radix(hex, 16)`
  resp. `u64::from_str_radix(hex, 16)` (which accept one leading sign
  character, any number of hex digits, and fail only on an empty digit
  string, a non-hex character, or numeric overflow); `format!("\x7b:x\x7d", id)`
  delegates to the unpadded lowercase hex formatter of the underlying
  integer; `TraceState::from_key_value` validates every key and value and
  otherwise keeps the ordered list; `TraceState::header` joins entries as
  `key=value` separated by commas.  `TraceState` is modelled as the ordered
  entry list (the library's `TraceState(None)` and an empty entry list are
  observationally identical under `header` and are identified here).
-/

set_option maxRecDepth 4000

/-- Opaque 64-bit float value: the bridge only copies floats, so a bit
pattern is a faithful carrier. -/
structure F64 where
  bits : Nat
deriving DecidableEq, Repr

/-- Guest `wall-clock.datetime`: seconds since epoch plus nanosecond offset. -/
structure Datetime where
  seconds : Nat
  nanoseconds : Nat
deriving DecidableEq, Repr

/-- Host `SystemTime`, as nanoseconds since the Unix epoch. -/
abbrev SystemTime := Nat

/-- Embeds `impl From<wall_clock::Datetime> for SystemTime`:
`UNIX_EPOCH + Duration::from_secs(seconds) + Duration::from_nanos(nanoseconds)`. -/
def dtToSystemTime (d : Datetime) : SystemTime :=
  d.seconds * 1000000000 + d.nanoseconds

/-! ### Identifier codec

The guest carries trace/span ids as hex text; the host as `u128`/`u64`
(modelled as `Nat` with explicit range checks). -/

/-- The ten decimal digit characters, least value first. -/
def decimalChars : List Char :=
  ['0', '1', '2', '3', '4', '5', '6', '7', '8', '9']

/-- The six lowercase hex letter characters, least value first. -/
def hexLetterChars : List Char :=
  ['a', 'b', 'c', 'd', 'e', 'f']

/-- The sixteen lowercase hex digit characters, least value first. -/
def lowerHexChars : List Char :=
  decimalChars ++ hexLetterChars

/-- Lowercase hexadecimal digit test, used in theorem statements. -/
def isLowerHexDigit (c : Char) : Bool :=
  lowerHexChars.contains c

/-- Models Rust `char::to_digit(16)`: digits, lowercase and uppercase hex
letters. -/
def hexVal? (c : Char) : Option Nat :=
  if '0' ≤ c ∧ c ≤ '9' then some (c.toNat - 48)
  else if 'a' ≤ c ∧ c ≤ 'f' then some (c.toNat - 87)
  else if 'A' ≤ c ∧ c ≤ 'F' then some (c.toNat - 55)
  else none

/-- Hex digit character for a value below 16 (as produced by the Rust
`LowerHex` formatter). -/
def hexChar (n : Nat) : Char :=
  lowerHexChars.getD n '0'

/-- Accumulating hex parser: the digit-by-digit accumulation of
`from_str_radix` (acc := 16 * acc + digit). -/
def parseHexAux : Nat → List Char → Nat
  | acc, [] => acc
  | acc, c :: cs => parseHexAux (16 * acc + (hexVal? c).getD 0) cs

/-- Strips the single optional leading sign character accepted by Rust
`from_str_radix`; returns (isNegative, remaining digits). -/
def stripSign : List Char → Bool × List Char
  | [] => (false, [])
  | c :: rest =>
    if c = '+' then (false, rest)
    else if c = '-' then (true, rest)
    else (false, c :: rest)

/-- Embeds `uN::from_str_radix(s, 16)` with `bound = 2 ^ N`: one optional
sign, a non-empty all-hex digit string, and no overflow (for an unsigned
type a negative sign is only accepted on value zero). -/
def fromStrRadix16 (bound : Nat) (s : String) : Option Nat :=
  let p := stripSign s.data
  if p.2.isEmpty then none
  else if p.2.all (fun c => (hexVal? c).isSome) then
    let v := parseHexAux 0 p.2
    if v < bound then
      if p.1 then (if v = 0 then some 0 else none) else some v
    else none
  else none

/-- Unpadded big-endian hex digit list of `n`, with structural fuel
(`toHexGo f n` is exact whenever `n < 16 ^ f`). -/
def toHexGo : Nat → Nat → List Char
  | 0, _ => []
  | f + 1, n =>
    if n < 16 then [hexChar n]
    else toHexGo f (n / 16) ++ [hexChar (n % 16)]

/-- Embeds `format!("\x7b:x\x7d", trace_id)`: the opentelemetry `LowerHex`
instance delegates to the integer formatter, which prints the minimal
(unpadded) lowercase hex representation.  Fuel 40 covers every `u128`. -/
def encodeTraceId (v : Nat) : String :=
  String.mk (toHexGo 40 v)

/-- Embeds `format!("\x7b:x\x7d", span_id)` (unpadded lowercase hex). -/
def encodeSpanId (v : Nat) : String :=
  String.mk (toHexGo 40 v)

/-- Embeds `TraceId::from_hex(s).unwrap_or(TraceId::INVALID)`:
`u128::from_str_radix(s, 16)` with the all-zero invalid sentinel on error. -/
def decodeTraceId (s : String) : Nat :=
  (fromStrRadix16 (2 ^ 128) s).getD 0

/-- Embeds `SpanId::from_hex(s).unwrap_or(SpanId::INVALID)`:
`u64::from_str_radix(s, 16)` with the all-zero invalid sentinel on error. -/
def decodeSpanId (s : String) : Nat :=
  (fromStrRadix16 (2 ^ 64) s).getD 0

/-! ### Guest (WASI) schema -/

namespace Wasi

/-- Guest `wasi:otel/types.value`: 4 scalar and 4 homogeneous array
variants. -/
inductive Value where
  | string (s : String)
  | bool (b : Bool)
  | f64 (v : F64)
  | s64 (v : Int)
  | stringArray (l : List String)
  | boolArray (l : List Bool)
  | f64Array (l : List F64)
  | s64Array (l : List Int)
deriving DecidableEq, Repr

/-- Guest `key-value`. -/
structure KeyValue where
  key : String
  value : Value
deriving DecidableEq, Repr

/-- Guest `instrumentation-scope`. -/
structure InstrumentationScope where
  name : String
  version : Option String
  schema_url : Option String
  attributes : List KeyValue
deriving DecidableEq, Repr

/-- Guest `span-context`.  The guest trace-flags is a wit `flags` type whose
only member is `sampled`, modelled as a `Bool`. -/
structure SpanContext where
  trace_id : String
  span_id : String
  trace_flags : Bool
  is_remote : Bool
  trace_state : List (String × String)
deriving DecidableEq, Repr

/-- Guest `span-kind`. -/
inductive SpanKind where
  | client
  | server
  | producer
  | consumer
  | internal
deriving DecidableEq, Repr

/-- Guest `status`. -/
inductive Status where
  | unset
  | ok
  | error (description : String)
deriving DecidableEq, Repr

/-- Guest span `event`. -/
structure Event where
  name : String
  time : Datetime
  attributes : List KeyValue
deriving DecidableEq, Repr

/-- Guest span `link`. -/
structure Link where
  span_context : SpanContext
  attributes : List KeyValue
deriving DecidableEq, Repr

/-- Guest `span-data`. -/
structure SpanData where
  span_context : SpanContext
  parent_span_id : String
  span_kind : SpanKind
  name : String
  start_time : Datetime
  end_time : Datetime
  attributes : List KeyValue
  dropped_attributes : Nat
  events : List Event
  dropped_events : Nat
  links : List Link
  dropped_links : Nat
  status : Status
  instrumentation_scope : InstrumentationScope
deriving DecidableEq, Repr

/-- Guest `metric-number`: a 3-way union, exactly one variant per point. -/
inductive MetricNumber where
  | f64 (v : F64)
  | s64 (v : Int)
  | u64 (v : Nat)
deriving DecidableEq, Repr

/-- Guest `exemplar`.  The guest carries the ids as strings whose raw bytes
are the identifier (the source reads them with `as_bytes()`); they are
modelled by their byte sequences. -/
structure Exemplar where
  filtered_attributes : List KeyValue
  time : Datetime
  value : MetricNumber
  span_id : List Nat
  trace_id : List Nat
deriving DecidableEq, Repr

/-- Guest sum/gauge `data-point`. -/
structure DataPoint where
  attributes : List KeyValue
  value : MetricNumber
  exemplars : List Exemplar
deriving DecidableEq, Repr

/-- Guest `temporality`. -/
inductive Temporality where
  | cumulative
  | delta
  | lowMemory
deriving DecidableEq, Repr

/-- Guest `sum`. -/
structure Sum where
  data_points : List DataPoint
  start_time : Datetime
  time : Datetime
  temporality : Temporality
  is_monotonic : Bool
deriving DecidableEq, Repr

/-- Guest `gauge`. -/
structure Gauge where
  data_points : List DataPoint
  start_time : Option Datetime
  time : Datetime
deriving DecidableEq, Repr

/-- Guest `histogram-data-point`. -/
structure HistogramDataPoint where
  attributes : List KeyValue
  bounds : List F64
  bucket_counts : List Nat
  exemplars : List Exemplar
  count : Nat
  max : Option MetricNumber
  min : Option MetricNumber
  sum : MetricNumber
deriving DecidableEq, Repr

/-- Guest `histogram`. -/
structure Histogram where
  data_points : List HistogramDataPoint
  start_time : Datetime
  time : Datetime
  temporality : Temporality
deriving DecidableEq, Repr

/-- Guest `exponential-bucket`. -/
structure ExponentialBucket where
  offset : Int
  counts : List Nat
deriving DecidableEq, Repr

/-- Guest `exponential-histogram-data-point`. -/
structure ExponentialHistogramDataPoint where
  attributes : List KeyValue
  exemplars : List Exemplar
  count : Nat
  max : Option MetricNumber
  min : Option MetricNumber
  sum : MetricNumber
  scale : Int
  zero_count : Nat
  positive_bucket : ExponentialBucket
  negative_bucket : ExponentialBucket
  zero_threshold : F64
deriving DecidableEq, Repr

/-- Guest `exponential-histogram`. -/
structure ExponentialHistogram where
  data_points : List ExponentialHistogramDataPoint
  start_time : Datetime
  time : Datetime
  temporality : Temporality
deriving DecidableEq, Repr

/-- Guest `metric-data`: 12 variants, shape times numeric kind. -/
inductive MetricData where
  | f64Sum (s : Sum)
  | s64Sum (s : Sum)
  | u64Sum (s : Sum)
  | f64Gauge (g : Gauge)
  | s64Gauge (g : Gauge)
  | u64Gauge (g : Gauge)
  | f64Histogram (h : Histogram)
  | s64Histogram (h : Histogram)
  | u64Histogram (h : Histogram)
  | f64ExponentialHistogram (h : ExponentialHistogram)
  | s64ExponentialHistogram (h : ExponentialHistogram)
  | u64ExponentialHistogram (h : ExponentialHistogram)
deriving DecidableEq, Repr

end Wasi

/-! ### Host (OpenTelemetry) schema -/

namespace Otel

/-- Host `StringValue` wrapper. -/
structure StringValue where
  s : String
deriving DecidableEq, Repr

/-- Host `opentelemetry::Array`: homogeneous array-of-scalars wrapper; the
array-of-strings representation is a distinct wrapper type. -/
inductive ArrayValue where
  | strings (l : List StringValue)
  | bools (l : List Bool)
  | f64s (l : List F64)
  | s64s (l : List Int)
deriving DecidableEq, Repr

/-- Host `opentelemetry::Value`. -/
inductive Value where
  | string (v : StringValue)
  | bool (b : Bool)
  | f64 (v : F64)
  | s64 (v : Int)
  | array (a : ArrayValue)
deriving DecidableEq, Repr

/-- Host `opentelemetry::KeyValue`. -/
structure KeyValue where
  key : String
  value : Value
deriving DecidableEq, Repr

/-- Host `InstrumentationScope` (the built result of the builder calls). -/
structure InstrumentationScope where
  name : String
  version : Option String
  schema_url : Option String
  attributes : List KeyValue
deriving DecidableEq, Repr

/-- Host `opentelemetry::trace::SpanContext`: `u128` trace id, `u64` span
id, `u8` trace flags (all as `Nat`), and the trace-state entry list. -/
structure SpanContext where
  trace_id : Nat
  span_id : Nat
  trace_flags : Nat
  is_remote : Bool
  trace_state : List (String × String)
deriving DecidableEq, Repr

/-- Host `SpanKind`. -/
inductive SpanKind where
  | client
  | server
  | producer
  | consumer
  | internal
deriving DecidableEq, Repr

/-- Host `Status`. -/
inductive Status where
  | unset
  | ok
  | error (description : String)
deriving DecidableEq, Repr

/-- Host `opentelemetry::trace::Event`. -/
structure Event where
  name : String
  time : SystemTime
  attributes : List KeyValue
  dropped_attributes_count : Nat
deriving DecidableEq, Repr

/-- Host `opentelemetry::trace::Link`. -/
structure Link where
  span_context : SpanContext
  attributes : List KeyValue
  dropped_attributes_count : Nat
deriving DecidableEq, Repr

/-- Host `SpanEvents`: event list plus authoritative dropped count. -/
structure SpanEvents where
  events : List Event
  dropped_count : Nat
deriving DecidableEq, Repr

/-- Host `SpanLinks`. -/
structure SpanLinks where
  links : List Link
  dropped_count : Nat
deriving DecidableEq, Repr

/-- Host `opentelemetry_sdk::trace::SpanData`. -/
structure SpanData where
  span_context : SpanContext
  parent_span_id : Nat
  span_kind : SpanKind
  name : String
  start_time : SystemTime
  end_time : SystemTime
  attributes : List KeyValue
  dropped_attributes_count : Nat
  events : SpanEvents
  links : SpanLinks
  status : Status
  instrumentation_scope : InstrumentationScope
deriving DecidableEq, Repr

/-- Host `Temporality`. -/
inductive Temporality where
  | cumulative
  | delta
  | lowMemory
deriving DecidableEq, Repr

/-- Host metric `Exemplar<T>`: ids are fixed-width byte arrays
(`[u8; 8]` / `[u8; 16]`), modelled as byte lists whose length was checked
by the conversion. -/
structure Exemplar (α : Type) where
  filtered_attributes : List KeyValue
  time : SystemTime
  value : α
  span_id : List Nat
  trace_id : List Nat
deriving DecidableEq, Repr

/-- Host `GaugeDataPoint<T>`. -/
structure GaugeDataPoint (α : Type) where
  attributes : List KeyValue
  value : α
  exemplars : List (Exemplar α)
deriving DecidableEq, Repr

/-- Host `Gauge<T>`. -/
structure Gauge (α : Type) where
  data_points : List (GaugeDataPoint α)
  start_time : Option SystemTime
  time : SystemTime
deriving DecidableEq, Repr

/-- Host `SumDataPoint<T>`. -/
structure SumDataPoint (α : Type) where
  attributes : List KeyValue
  exemplars : List (Exemplar α)
  value : α
deriving DecidableEq, Repr

/-- Host `Sum<T>`. -/
structure Sum (α : Type) where
  data_points : List (SumDataPoint α)
  start_time : SystemTime
  time : SystemTime
  temporality : Temporality
  is_monotonic : Bool
deriving DecidableEq, Repr

/-- Host `HistogramDataPoint<T>`. -/
structure HistogramDataPoint (α : Type) where
  attributes : List KeyValue
  bounds : List F64
  bucket_counts : List Nat
  exemplars : List (Exemplar α)
  count : Nat
  max : Option α
  min : Option α
  sum : α
deriving DecidableEq, Repr

/-- Host `Histogram<T>`. -/
structure Histogram (α : Type) where
  data_points : List (HistogramDataPoint α)
  start_time : SystemTime
  time : SystemTime
  temporality : Temporality
deriving DecidableEq, Repr

/-- Host `ExponentialBucket`. -/
structure ExponentialBucket where
  offset : Int
  counts : List Nat
deriving DecidableEq, Repr

/-- Host `ExponentialHistogramDataPoint<T>`. -/
structure ExponentialHistogramDataPoint (α : Type) where
  attributes : List KeyValue
  exemplars : List (Exemplar α)
  count : Nat
  max : Option α
  min : Option α
  sum : α
  scale : Int
  zero_count : Nat
  positive_bucket : ExponentialBucket
  negative_bucket : ExponentialBucket
  zero_threshold : F64
deriving DecidableEq, Repr

/-- Host `ExponentialHistogram<T>`. -/
structure ExponentialHistogram (α : Type) where
  data_points : List (ExponentialHistogramDataPoint α)
  start_time : SystemTime
  time : SystemTime
  temporality : Temporality
deriving DecidableEq, Repr

/-- Host `Box<dyn Aggregation>`: the twelve concrete aggregations the
12-way dispatch can produce. -/
inductive Aggregation where
  | f64Sum (s : Sum F64)
  | s64Sum (s : Sum Int)
  | u64Sum (s : Sum Nat)
  | f64Gauge (g : Gauge F64)
  | s64Gauge (g : Gauge Int)
  | u64Gauge (g : Gauge Nat)
  | f64Histogram (h : Histogram F64)
  | s64Histogram (h : Histogram Int)
  | u64Histogram (h : Histogram Nat)
  | f64ExponentialHistogram (h : ExponentialHistogram F64)
  | s64ExponentialHistogram (h : ExponentialHistogram Int)
  | u64ExponentialHistogram (h : ExponentialHistogram Nat)
deriving DecidableEq, Repr

end Otel

/-! ### Scalar value and attribute conversion -/

/-- Embeds `impl From<wasi::otel::types::Value> for opentelemetry::Value`
from conversions.rs (lines 384-402). -/
def valueToOtel : Wasi.Value → Otel.Value
  | .string v => .string ⟨v⟩
  | .bool v => .bool v
  | .f64 v => .f64 v
  | .s64 v => .s64 v
  | .stringArray v => .array (.strings (v.map fun s => ⟨s⟩))
  | .boolArray v => .array (.bools v)
  | .f64Array v => .array (.f64s v)
  | .s64Array v => .array (.s64s v)

/-- Embeds `impl From<wasi::otel::types::Value> for opentelemetry::Value`
from common_conversions.rs (lines 16-34), which repeats the same match. -/
def commonValueToOtel : Wasi.Value → Otel.Value
  | .string v => .string ⟨v⟩
  | .bool v => .bool v
  | .f64 v => .f64 v
  | .s64 v => .s64 v
  | .stringArray v => .array (.strings (v.map fun s => ⟨s⟩))
  | .boolArray v => .array (.bools v)
  | .f64Array v => .array (.f64s v)
  | .s64Array v => .array (.s64s v)

/-- Embeds `impl From<wasi KeyValue> for opentelemetry::KeyValue`
(`KeyValue::new(kv.key, kv.value)`). -/
def keyValueToOtel (kv : Wasi.KeyValue) : Otel.KeyValue :=
  { key := kv.key, value := valueToOtel kv.value }

/-- Embeds `impl From<wasi InstrumentationScope> for opentelemetry
InstrumentationScope`: the builder is invoked through a 4-way match over
the presence of version and schema URL. -/
def instrumentationScopeToOtel (v : Wasi.InstrumentationScope) : Otel.InstrumentationScope :=
  match v.version, v.schema_url with
  | some ver, some su =>
    { name := v.name, version := some ver, schema_url := some su,
      attributes := v.attributes.map keyValueToOtel }
  | some ver, none =>
    { name := v.name, version := some ver, schema_url := none,
      attributes := v.attributes.map keyValueToOtel }
  | none, some su =>
    { name := v.name, version := none, schema_url := some su,
      attributes := v.attributes.map keyValueToOtel }
  | none, none =>
    { name := v.name, version := none, schema_url := none,
      attributes := v.attributes.map keyValueToOtel }

/-! ### Trace-state validation and header codec (opentelemetry library
model) -/

/-- Character class admitted inside a trace-state key by the host
validator. -/
def isAllowedKeyChar (c : Char) : Bool :=
  c.isLower || c.isDigit || c == '_' || c == '-' || c == '*' || c == '/' || c == '@'

/-- Models the per-character loop of `TraceState::valid_key`: allowed
characters only, first character lowercase letter or digit, at most one
`@` with a bounded vendor suffix. -/
def validKeyGo : List Char → Nat → Nat → Option Nat → Bool
  | [], _, _, _ => true
  | c :: rest, i, len, vendorStart =>
    if !isAllowedKeyChar c then false
    else if i = 0 && !(c.isLower || c.isDigit) then false
    else if c = '@' then
      if vendorStart.isSome || i + 14 < len then false
      else validKeyGo rest (i + 1) len (some i)
    else
      match vendorStart with
      | some s => if i - s > 14 then false else validKeyGo rest (i + 1) len (some s)
      | none => validKeyGo rest (i + 1) len none

/-- Models `TraceState::valid_key` from the opentelemetry crate. -/
def validKey (k : String) : Bool :=
  decide (k.length ≤ 256) && validKeyGo k.data 0 k.length none

/-- Models `TraceState::valid_value` from the opentelemetry crate: at most
256 characters, and no `,` or `=`. -/
def validValue (v : String) : Bool :=
  decide (v.length ≤ 256) && !v.data.contains ',' && !v.data.contains '='

/-- Models `TraceState::from_key_value`: every key and value must pass
validation, the ordered entry list is kept; `none` models the library
error. -/
def traceStateFromKeyValue (l : List (String × String)) : Option (List (String × String)) :=
  if l.all fun kv => validKey kv.1 && validValue kv.2 then some l else none

/-- Models `TraceState::header()`: entries printed `key=value`, joined with
commas (as a character list). -/
def headerChars : List (String × String) → List Char
  | [] => []
  | [kv] => kv.1.data ++ '=' :: kv.2.data
  | kv :: kv2 :: rest => kv.1.data ++ '=' :: kv.2.data ++ ',' :: headerChars (kv2 :: rest)

/-- Models Rust `str::split(sep)`: always at least one (possibly empty)
piece. -/
def splitOnChar (sep : Char) : List Char → List (List Char)
  | [] => [[]]
  | c :: rest =>
    if c = sep then [] :: splitOnChar sep rest
    else
      match splitOnChar sep rest with
      | [] => [[c]]
      | p :: ps => (c :: p) :: ps

/-- Models Rust `str::split_once(sep)`: splits at the first occurrence. -/
def splitOnceChar (sep : Char) : List Char → Option (List Char × List Char)
  | [] => none
  | c :: rest =>
    if c = sep then some ([], rest)
    else (splitOnceChar sep rest).map fun p => (c :: p.1, p.2)

/-! ### Trace conversions -/

/-- Embeds `impl From<wasi TraceFlags> for opentelemetry TraceFlags`:
`TraceFlags::new(flags.as_array()[0] as u8)`; the only guest flag is
`sampled` (bit 0). -/
def traceFlagsToOtel (sampled : Bool) : Nat :=
  if sampled then 1 else 0

/-- Embeds `impl From<opentelemetry TraceFlags> for wasi TraceFlags`:
`SAMPLED` when `flags.is_sampled()` (bit 0 set), empty otherwise. -/
def traceFlagsToWasi (flags : Nat) : Bool :=
  flags &&& 1 == 1

/-- Embeds `impl From<wasi SpanContext> for opentelemetry SpanContext`
(conversions.rs lines 303-319): hex decoding with the invalid sentinel
fallback, trace-state validation with the empty fallback. -/
def spanContextToOtel (sc : Wasi.SpanContext) : Otel.SpanContext :=
  { trace_id := decodeTraceId sc.trace_id,
    span_id := decodeSpanId sc.span_id,
    trace_flags := traceFlagsToOtel sc.trace_flags,
    is_remote := sc.is_remote,
    trace_state := (traceStateFromKeyValue sc.trace_state).getD [] }

/-- Embeds `impl From<opentelemetry SpanContext> for wasi SpanContext`
(conversions.rs lines 321-342): unpadded hex formatting of the ids, and
the trace-state reconstructed by formatting the header string and
re-splitting on `,` and `=`. -/
def spanContextToWasi (sc : Otel.SpanContext) : Wasi.SpanContext :=
  { trace_id := encodeTraceId sc.trace_id,
    span_id := encodeSpanId sc.span_id,
    trace_flags := traceFlagsToWasi sc.trace_flags,
    is_remote := sc.is_remote,
    trace_state :=
      (splitOnChar ',' (headerChars sc.trace_state)).filterMap fun s =>
        (splitOnceChar '=' s).map fun p => (String.mk p.1, String.mk p.2) }

/-- Embeds `impl From<wasi SpanKind> for opentelemetry SpanKind`
(exhaustive five-way match). -/
def spanKindToOtel : Wasi.SpanKind → Otel.SpanKind
  | .client => .client
  | .server => .server
  | .producer => .producer
  | .consumer => .consumer
  | .internal => .internal

/-- Embeds `impl From<wasi Status> for opentelemetry Status`. -/
def statusToOtel : Wasi.Status → Otel.Status
  | .unset => .unset
  | .ok => .ok
  | .error s => .error s

/-- Embeds `impl From<wasi Event> for opentelemetry Event`
(conversions.rs lines 404-413): `Event::new(name, time, attributes, 0)` —
the dropped-attributes count is the literal 0. -/
def eventToOtel (e : Wasi.Event) : Otel.Event :=
  { name := e.name,
    time := dtToSystemTime e.time,
    attributes := e.attributes.map keyValueToOtel,
    dropped_attributes_count := 0 }

/-- Embeds `impl From<wasi Link> for opentelemetry Link`
(conversions.rs lines 415-423): `Link::new(span_context, attributes, 0)`. -/
def linkToOtel (l : Wasi.Link) : Otel.Link :=
  { span_context := spanContextToOtel l.span_context,
    attributes := l.attributes.map keyValueToOtel,
    dropped_attributes_count := 0 }

/-- Embeds `impl From<wasi SpanData> for opentelemetry_sdk SpanData`
(conversions.rs lines 277-301): dropped counts copied through unchanged,
parent span id decoded with the invalid sentinel fallback. -/
def spanDataToOtel (sd : Wasi.SpanData) : Otel.SpanData :=
  { span_context := spanContextToOtel sd.span_context,
    parent_span_id := decodeSpanId sd.parent_span_id,
    span_kind := spanKindToOtel sd.span_kind,
    name := sd.name,
    start_time := dtToSystemTime sd.start_time,
    end_time := dtToSystemTime sd.end_time,
    attributes := sd.attributes.map keyValueToOtel,
    dropped_attributes_count := sd.dropped_attributes,
    events := { events := sd.events.map eventToOtel, dropped_count := sd.dropped_events },
    links := { links := sd.links.map linkToOtel, dropped_count := sd.dropped_links },
    status := statusToOtel sd.status,
    instrumentation_scope := instrumentationScopeToOtel sd.instrumentation_scope }

/-! ### Metric conversions

The numeric-kind projections and the exemplar id casts abort in the source;
`none` models the abort. -/

/-- Embeds `impl From<MetricNumber> for f64` (conversions.rs lines
228-235): any variant other than `F64` aborts (`none`). -/
def metricNumberToF64 : Wasi.MetricNumber → Option F64
  | .f64 n => some n
  | _ => none

/-- Embeds `impl From<MetricNumber> for u64` (conversions.rs lines
237-244). -/
def metricNumberToU64 : Wasi.MetricNumber → Option Nat
  | .u64 n => some n
  | _ => none

/-- Embeds `impl From<MetricNumber> for i64` (conversions.rs lines
246-253). -/
def metricNumberToS64 : Wasi.MetricNumber → Option Int
  | .s64 n => some n
  | _ => none

/-- Option-valued traversal of a list (the `collect` of an iterator whose
body may abort). -/
def optionTraverse (f : α → Option β) : List α → Option (List β)
  | [] => some []
  | a :: as =>
    match f a, optionTraverse f as with
    | some b, some bs => some (b :: bs)
    | _, _ => none

/-- Embeds the body of the `exemplars_to_otel!` macro (conversions.rs
lines 56-89): the span id bytes must cast to `[u8; 8]` and the trace id
bytes to `[u8; 16]` (otherwise the `expect` aborts), and the value is
projected to the declared numeric kind. -/
def exemplarToOtel (proj : Wasi.MetricNumber → Option α) (e : Wasi.Exemplar) :
    Option (Otel.Exemplar α) :=
  if e.span_id.length = 8 then
    if e.trace_id.length = 16 then
      match proj e.value with
      | some v =>
        some { filtered_attributes := e.filtered_attributes.map keyValueToOtel,
               time := dtToSystemTime e.time,
               value := v,
               span_id := e.span_id,
               trace_id := e.trace_id }
      | none => none
    else none
  else none

/-- Embeds `impl From<wasi Temporality> for opentelemetry Temporality`
(conversions.rs lines 266-275). -/
def temporalityToOtel : Wasi.Temporality → Otel.Temporality
  | .cumulative => .cumulative
  | .delta => .delta
  | .lowMemory => .lowMemory

/-- Conversion of a sum data point inside `wasi_sum_to_otel!`. -/
def sumDataPointToOtel (proj : Wasi.MetricNumber → Option α) (dp : Wasi.DataPoint) :
    Option (Otel.SumDataPoint α) :=
  match optionTraverse (exemplarToOtel proj) dp.exemplars, proj dp.value with
  | some es, some v =>
    some { attributes := dp.attributes.map keyValueToOtel, exemplars := es, value := v }
  | _, _ => none

/-- Embeds `wasi_sum_to_otel!` (conversions.rs lines 114-132). -/
def wasiSumToOtel (proj : Wasi.MetricNumber → Option α) (s : Wasi.Sum) :
    Option (Otel.Sum α) :=
  (optionTraverse (sumDataPointToOtel proj) s.data_points).map fun dps =>
    { data_points := dps,
      start_time := dtToSystemTime s.start_time,
      time := dtToSystemTime s.time,
      temporality := temporalityToOtel s.temporality,
      is_monotonic := s.is_monotonic }

/-- Conversion of a gauge data point inside `wasi_gauge_to_otel!`. -/
def gaugeDataPointToOtel (proj : Wasi.MetricNumber → Option α) (dp : Wasi.DataPoint) :
    Option (Otel.GaugeDataPoint α) :=
  match optionTraverse (exemplarToOtel proj) dp.exemplars, proj dp.value with
  | some es, some v =>
    some { attributes := dp.attributes.map keyValueToOtel, value := v, exemplars := es }
  | _, _ => none

/-- Embeds `wasi_gauge_to_otel!` (conversions.rs lines 92-111). -/
def wasiGaugeToOtel (proj : Wasi.MetricNumber → Option α) (g : Wasi.Gauge) :
    Option (Otel.Gauge α) :=
  (optionTraverse (gaugeDataPointToOtel proj) g.data_points).map fun dps =>
    { data_points := dps,
      start_time := g.start_time.map dtToSystemTime,
      time := dtToSystemTime g.time }

/-- Projection of an optional `MetricNumber` (the `match dp.max` arms of
the histogram macros): absent stays absent, present must project. -/
def optProj (proj : Wasi.MetricNumber → Option α) : Option Wasi.MetricNumber → Option (Option α)
  | some m => (proj m).map some
  | none => some none

/-- Conversion of a histogram data point inside `wasi_histogram_to_otel!`. -/
def histogramDataPointToOtel (proj : Wasi.MetricNumber → Option α)
    (dp : Wasi.HistogramDataPoint) : Option (Otel.HistogramDataPoint α) :=
  match optionTraverse (exemplarToOtel proj) dp.exemplars, proj dp.sum,
        optProj proj dp.max, optProj proj dp.min with
  | some es, some s, some mx, some mn =>
    some { attributes := dp.attributes.map keyValueToOtel,
           bounds := dp.bounds,
           bucket_counts := dp.bucket_counts,
           exemplars := es,
           count := dp.count,
           max := mx,
           min := mn,
           sum := s }
  | _, _, _, _ => none

/-- Embeds `wasi_histogram_to_otel!` (conversions.rs lines 135-163). -/
def wasiHistogramToOtel (proj : Wasi.MetricNumber → Option α) (h : Wasi.Histogram) :
    Option (Otel.Histogram α) :=
  (optionTraverse (histogramDataPointToOtel proj) h.data_points).map fun dps =>
    { data_points := dps,
      start_time := dtToSystemTime h.start_time,
      time := dtToSystemTime h.time,
      temporality := temporalityToOtel h.temporality }

/-- Embeds `impl From<wasi ExponentialBucket> for otel ExponentialBucket`
(conversions.rs lines 255-264). -/
def exponentialBucketToOtel (b : Wasi.ExponentialBucket) : Otel.ExponentialBucket :=
  { offset := b.offset, counts := b.counts }

/-- Conversion of an exponential-histogram data point inside
`wasi_exponential_histogram_to_otel!`. -/
def expHistogramDataPointToOtel (proj : Wasi.MetricNumber → Option α)
    (dp : Wasi.ExponentialHistogramDataPoint) :
    Option (Otel.ExponentialHistogramDataPoint α) :=
  match optionTraverse (exemplarToOtel proj) dp.exemplars, proj dp.sum,
        optProj proj dp.max, optProj proj dp.min with
  | some es, some s, some mx, some mn =>
    some { attributes := dp.attributes.map keyValueToOtel,
           exemplars := es,
           count := dp.count,
           max := mx,
           min := mn,
           sum := s,
           scale := dp.scale,
           zero_count := dp.zero_count,
           positive_bucket := exponentialBucketToOtel dp.positive_bucket,
           negative_bucket := exponentialBucketToOtel dp.negative_bucket,
           zero_threshold := dp.zero_threshold }
  | _, _, _, _ => none

/-- Embeds `wasi_exponential_histogram_to_otel!` (conversions.rs lines
166-199). -/
def wasiExpHistogramToOtel (proj : Wasi.MetricNumber → Option α)
    (h : Wasi.ExponentialHistogram) : Option (Otel.ExponentialHistogram α) :=
  (optionTraverse (expHistogramDataPointToOtel proj) h.data_points).map fun dps =>
    { data_points := dps,
      start_time := dtToSystemTime h.start_time,
      time := dtToSystemTime h.time,
      temporality := temporalityToOtel h.temporality }

/-- Embeds `impl From<wasi MetricData> for Box<dyn Aggregation>`
(conversions.rs lines 201-226): the 12-way dispatch over shape and
numeric kind. -/
def metricDataToOtel : Wasi.MetricData → Option Otel.Aggregation
  | .f64Sum s => (wasiSumToOtel metricNumberToF64 s).map .f64Sum
  | .s64Sum s => (wasiSumToOtel metricNumberToS64 s).map .s64Sum
  | .u64Sum s => (wasiSumToOtel metricNumberToU64 s).map .u64Sum
  | .f64Gauge g => (wasiGaugeToOtel metricNumberToF64 g).map .f64Gauge
  | .s64Gauge g => (wasiGaugeToOtel metricNumberToS64 g).map .s64Gauge
  | .u64Gauge g => (wasiGaugeToOtel metricNumberToU64 g).map .u64Gauge
  | .f64Histogram h => (wasiHistogramToOtel metricNumberToF64 h).map .f64Histogram
  | .s64Histogram h => (wasiHistogramToOtel metricNumberToS64 h).map .s64Histogram
  | .u64Histogram h => (wasiHistogramToOtel metricNumberToU64 h).map .u64Histogram
  | .f64ExponentialHistogram h =>
    (wasiExpHistogramToOtel metricNumberToF64 h).map .f64ExponentialHistogram
  | .s64ExponentialHistogram h =>
    (wasiExpHistogramToOtel metricNumberToS64 h).map .s64ExponentialHistogram
  | .u64ExponentialHistogram h =>
    (wasiExpHistogramToOtel metricNumberToU64 h).map .u64ExponentialHistogram

/-! ### Well-formedness predicates (the schema contract the guest is
expected to uphold) -/

/-- Does the number carry the `f64` variant? -/
def isF64Number : Wasi.MetricNumber → Bool
  | .f64 _ => true
  | _ => false

/-- Does the number carry the `s64` variant? -/
def isS64Number : Wasi.MetricNumber → Bool
  | .s64 _ => true
  | _ => false

/-- Does the number carry the `u64` variant? -/
def isU64Number : Wasi.MetricNumber → Bool
  | .u64 _ => true
  | _ => false

/-- An exemplar conforms to a declared numeric kind: its value carries
that kind and its identifiers have the fixed byte lengths. -/
def wfExemplar (kind : Wasi.MetricNumber → Bool) (e : Wasi.Exemplar) : Bool :=
  kind e.value && e.span_id.length == 8 && e.trace_id.length == 16

/-- A sum/gauge data point conforms to a declared numeric kind. -/
def wfDataPoint (kind : Wasi.MetricNumber → Bool) (dp : Wasi.DataPoint) : Bool :=
  kind dp.value && dp.exemplars.all (wfExemplar kind)

/-- Kind conformance of an optional number (absent is fine). -/
def wfOptNumber (kind : Wasi.MetricNumber → Bool) : Option Wasi.MetricNumber → Bool
  | some m => kind m
  | none => true

/-- A histogram data point conforms to a declared numeric kind. -/
def wfHistogramDataPoint (kind : Wasi.MetricNumber → Bool)
    (dp : Wasi.HistogramDataPoint) : Bool :=
  kind dp.sum && wfOptNumber kind dp.max && wfOptNumber kind dp.min &&
    dp.exemplars.all (wfExemplar kind)

/-- An exponential-histogram data point conforms to a declared numeric
kind. -/
def wfExpHistogramDataPoint (kind : Wasi.MetricNumber → Bool)
    (dp : Wasi.ExponentialHistogramDataPoint) : Bool :=
  kind dp.sum && wfOptNumber kind dp.max && wfOptNumber kind dp.min &&
    dp.exemplars.all (wfExemplar kind)

/-- Every data point of a sum conforms to the declared kind. -/
def wfSum (kind : Wasi.MetricNumber → Bool) (s : Wasi.Sum) : Bool :=
  s.data_points.all (wfDataPoint kind)

/-- Every data point of a gauge conforms to the declared kind. -/
def wfGauge (kind : Wasi.MetricNumber → Bool) (g : Wasi.Gauge) : Bool :=
  g.data_points.all (wfDataPoint kind)

/-- Every data point of a histogram conforms to the declared kind. -/
def wfHistogram (kind : Wasi.MetricNumber → Bool) (h : Wasi.Histogram) : Bool :=
  h.data_points.all (wfHistogramDataPoint kind)

/-- Every data point of an exponential histogram conforms to the declared
kind. -/
def wfExpHistogram (kind : Wasi.MetricNumber → Bool) (h : Wasi.ExponentialHistogram) : Bool :=
  h.data_points.all (wfExpHistogramDataPoint kind)

/-- The guest schema contract for a metric payload: every data point (its
value, its optional min/max/sum numbers, and its exemplars' values)
carries exactly the numeric kind declared by the variant, and every
exemplar identifier has the fixed byte length. -/
def wfMetricData : Wasi.MetricData → Bool
  | .f64Sum s => wfSum isF64Number s
  | .s64Sum s => wfSum isS64Number s
  | .u64Sum s => wfSum isU64Number s
  | .f64Gauge g => wfGauge isF64Number g
  | .s64Gauge g => wfGauge isS64Number g
  | .u64Gauge g => wfGauge isU64Number g
  | .f64Histogram h => wfHistogram isF64Number h
  | .s64Histogram h => wfHistogram isS64Number h
  | .u64Histogram h => wfHistogram isU64Number h
  | .f64ExponentialHistogram h => wfExpHistogram isF64Number h
  | .s64ExponentialHistogram h => wfExpHistogram isS64Number h
  | .u64ExponentialHistogram h => wfExpHistogram isU64Number h

/-! ### Concrete sample inputs used by witnesses and counterexamples -/

/-- Host span context with numerically small identifiers. -/
def scSmallIds : Otel.SpanContext :=
  { trace_id := 1, span_id := 1, trace_flags := 1, is_remote := false, trace_state := [] }

/-- Host span context whose `u8` trace flags carry a bit other than
`sampled`. -/
def scFlagsTwo : Otel.SpanContext :=
  { trace_id := 0, span_id := 0, trace_flags := 2, is_remote := false, trace_state := [] }

/-- Host span context with valid ids, sampled flags and a valid
trace-state entry. -/
def scRound : Otel.SpanContext :=
  { trace_id := 7, span_id := 3, trace_flags := 1, is_remote := true,
    trace_state := [("foo", "bar")] }

/-- Guest span context whose id texts are well-formed hex of the wrong
length. -/
def wasiScShortHex : Wasi.SpanContext :=
  { trace_id := "ff", span_id := "ff", trace_flags := false, is_remote := false,
    trace_state := [] }

/-- Guest span context with empty id texts. -/
def wasiScEmptyIds : Wasi.SpanContext :=
  { trace_id := "", span_id := "", trace_flags := false, is_remote := false,
    trace_state := [] }

/-- Guest span context whose trace-state fails host validation (uppercase
key). -/
def wasiScBadState : Wasi.SpanContext :=
  { trace_id := "", span_id := "", trace_flags := false, is_remote := false,
    trace_state := [("NOPE", "x")] }

/-- A 32-character lowercase hex string with a leading zero. -/
def hexPadded32 : String := "0aaaaaaaaaaaaaaaaaaaaaaaaaaaaaaa"

/-- A canonical (no leading zero) 32-character lowercase hex string. -/
def hexCanon32 : String := "4fb34cb4484029f7881399b149e41e98"

/-- A canonical 16-character lowercase hex string. -/
def hexCanon16 : String := "9ffd58d3cd4dd90b"

/-- A well-formed `f64` exemplar: 8 span-id bytes, 16 trace-id bytes. -/
def exemplarOkF64 : Wasi.Exemplar :=
  { filtered_attributes := [], time := ⟨0, 0⟩, value := .f64 ⟨2⟩,
    span_id := List.replicate 8 0, trace_id := List.replicate 16 0 }

/-- An exemplar whose span-id byte sequence is empty (not 8 bytes). -/
def exemplarBadSpan : Wasi.Exemplar :=
  { filtered_attributes := [], time := ⟨0, 0⟩, value := .f64 ⟨0⟩,
    span_id := [], trace_id := List.replicate 16 0 }

/-- An exemplar whose trace-id byte sequence is empty (not 16 bytes). -/
def exemplarBadTrace : Wasi.Exemplar :=
  { filtered_attributes := [], time := ⟨0, 0⟩, value := .f64 ⟨0⟩,
    span_id := List.replicate 8 0, trace_id := [] }

/-- A well-formed `f64` sum data point with one exemplar. -/
def dpF64 : Wasi.DataPoint :=
  { attributes := [], value := .f64 ⟨1⟩, exemplars := [exemplarOkF64] }

/-- A well-formed `f64` sum payload. -/
def sumF64sample : Wasi.Sum :=
  { data_points := [dpF64], start_time := ⟨0, 0⟩, time := ⟨0, 0⟩,
    temporality := .cumulative, is_monotonic := true }

/-- A well-formed `F64Sum` metric payload. -/
def mdF64Sum : Wasi.MetricData := .f64Sum sumF64sample

/-- A minimal guest span record. -/
def sdSample : Wasi.SpanData :=
  { span_context := wasiScEmptyIds, parent_span_id := "", span_kind := .internal,
    name := "s", start_time := ⟨0, 0⟩, end_time := ⟨0, 0⟩, attributes := [],
    dropped_attributes := 0, events := [], dropped_events := 0, links := [],
    dropped_links := 0, status := .unset,
    instrumentation_scope := ⟨"lib", none, none, []⟩ }

/-! ### Hex digit lemmas -/

theorem hexVal_hexChar (n : Nat) (h : n < 16) : hexVal? (hexChar n) = some n := by
  interval_cases n <;> decide

theorem hexChar_isLowerHex (n : Nat) (h : n < 16) : isLowerHexDigit (hexChar n) = true := by
  interval_cases n <;> decide

theorem lowerHex_mem (c : Char) (h : isLowerHexDigit c = true) : c ∈ lowerHexChars := by
  simpa [isLowerHexDigit] using h

theorem lowerHex_val_isSome (c : Char) (h : isLowerHexDigit c = true) :
    (hexVal? c).isSome = true := by
  have hm := lowerHex_mem c h
  fin_cases hm <;> decide

theorem lowerHex_val_lt (c : Char) (h : isLowerHexDigit c = true) :
    (hexVal? c).getD 0 < 16 := by
  have hm := lowerHex_mem c h
  fin_cases hm <;> decide

theorem lowerHex_not_sign (c : Char) (h : isLowerHexDigit c = true) :
    c ≠ '+' ∧ c ≠ '-' := by
  have hm := lowerHex_mem c h
  fin_cases hm <;> decide

theorem hexChar_val_roundtrip (c : Char) (h : isLowerHexDigit c = true) :
    hexChar ((hexVal? c).getD 0) = c := by
  have hm := lowerHex_mem c h
  fin_cases hm <;> decide

theorem lowerHex_one_le_val (c : Char) (h : isLowerHexDigit c = true) (h0 : c ≠ '0') :
    1 ≤ (hexVal? c).getD 0 := by
  have hm := lowerHex_mem c h
  fin_cases hm
  · exact absurd rfl h0
  all_goals decide

/-! ### Hex parser and formatter lemmas -/

theorem parseHexAux_append (a b : List Char) :
    ∀ acc, parseHexAux acc (a ++ b) = parseHexAux (parseHexAux acc a) b := by
  induction a with
  | nil => intro acc; rfl
  | cons c cs ih => intro acc; simp [parseHexAux, ih]

theorem le_parseHexAux (cs : List Char) :
    ∀ acc, acc * 16 ^ cs.length ≤ parseHexAux acc cs := by
  induction cs with
  | nil => intro acc; simp [parseHexAux]
  | cons c cs ih =>
    intro acc
    have h1 : acc * 16 ^ (c :: cs).length = (acc * 16) * 16 ^ cs.length := by
      simp [List.length_cons, pow_succ]; ring
    rw [h1]
    calc (acc * 16) * 16 ^ cs.length
        ≤ (16 * acc + (hexVal? c).getD 0) * 16 ^ cs.length := by
          exact Nat.mul_le_mul_right _ (by omega)
      _ ≤ parseHexAux (16 * acc + (hexVal? c).getD 0) cs := ih _

theorem parseHexAux_lt (cs : List Char) (h : ∀ c ∈ cs, isLowerHexDigit c = true) :
    ∀ acc, parseHexAux acc cs < (acc + 1) * 16 ^ cs.length := by
  induction cs with
  | nil => intro acc; simp [parseHexAux]
  | cons c cs ih =>
    intro acc
    have hv : (hexVal? c).getD 0 < 16 := lowerHex_val_lt c (h c (by simp))
    have step := ih (fun x hx => h x (by simp [hx])) (16 * acc + (hexVal? c).getD 0)
    have h1 : (16 * acc + (hexVal? c).getD 0 + 1) * 16 ^ cs.length
        ≤ (acc + 1) * 16 ^ (c :: cs).length := by
      simp only [List.length_cons, pow_succ]
      calc (16 * acc + (hexVal? c).getD 0 + 1) * 16 ^ cs.length
          ≤ (16 * acc + 16) * 16 ^ cs.length := Nat.mul_le_mul_right _ (by omega)
        _ = (acc + 1) * (16 ^ cs.length * 16) := by ring
    simp only [parseHexAux]
    omega

theorem parseHex_lt_of_lower (cs : List Char) (h : ∀ c ∈ cs, isLowerHexDigit c = true) :
    parseHexAux 0 cs < 16 ^ cs.length := by
  have := parseHexAux_lt cs h 0
  simpa using this

theorem one_le_parseHex (c : Char) (cs : List Char)
    (hc : isLowerHexDigit c = true) (h0 : c ≠ '0') :
    1 ≤ parseHexAux 0 (c :: cs) := by
  have h1 : 1 ≤ (hexVal? c).getD 0 := lowerHex_one_le_val c hc h0
  have h2 := le_parseHexAux cs ((hexVal? c).getD 0)
  have h3 : 1 ≤ 16 ^ cs.length := Nat.one_le_pow _ _ (by norm_num)
  have h4 : (hexVal? c).getD 0 * 1 ≤ (hexVal? c).getD 0 * 16 ^ cs.length :=
    Nat.mul_le_mul_left _ h3
  simp only [parseHexAux, Nat.mul_zero, Nat.zero_add]
  omega

theorem toHexGo_ne_nil (f n : Nat) (h : 1 ≤ f) : toHexGo f n ≠ [] := by
  obtain ⟨f', rfl⟩ : ∃ f'', f = f'' + 1 := ⟨f - 1, by omega⟩
  by_cases h16 : n < 16 <;> simp [toHexGo, h16]

theorem parse_toHexGo (f : Nat) : ∀ n, n < 16 ^ f → parseHexAux 0 (toHexGo f n) = n := by
  induction f with
  | zero =>
    intro n hn
    have : n = 0 := by simpa using hn
    simp [this, toHexGo, parseHexAux]
  | succ f ih =>
    intro n hn
    by_cases h16 : n < 16
    · simp [toHexGo, h16, parseHexAux, hexVal_hexChar n h16]
    · have hdiv : n / 16 < 16 ^ f := by
        rw [Nat.div_lt_iff_lt_mul (by norm_num : 0 < 16)]
        rw [pow_succ] at hn
        exact hn
      have hmod : n % 16 < 16 := Nat.mod_lt _ (by norm_num)
      rw [toHexGo]
      simp only [h16, if_false]
      rw [parseHexAux_append, ih (n / 16) hdiv]
      simp [parseHexAux, hexVal_hexChar (n % 16) hmod]
      omega

theorem toHexGo_length (f : Nat) :
    ∀ k n, 1 ≤ k → k ≤ f → n < 16 ^ k → (toHexGo f n).length ≤ k := by
  induction f with
  | zero => intro k n hk hkf _; omega
  | succ f ih =>
    intro k n hk hkf hn
    by_cases h16 : n < 16
    · simp [toHexGo, h16]
      omega
    · obtain ⟨k', rfl⟩ : ∃ k'', k = k'' + 1 := ⟨k - 1, by omega⟩
      have hk' : 1 ≤ k' := by
        rcases Nat.eq_zero_or_pos k' with h0 | h1
        · subst h0; simp at hn; omega
        · exact h1
      have hdiv : n / 16 < 16 ^ k' := by
        rw [Nat.div_lt_iff_lt_mul (by norm_num : 0 < 16)]
        rw [pow_succ] at hn
        exact hn
      rw [toHexGo]
      simp only [h16, if_false, List.length_append, List.length_cons, List.length_nil]
      have := ih k' (n / 16) hk' (by omega) hdiv
      omega

theorem toHexGo_mem_lower (f : Nat) :
    ∀ n c, c ∈ toHexGo f n → isLowerHexDigit c = true := by
  induction f with
  | zero => intro n c hc; simp [toHexGo] at hc
  | succ f ih =>
    intro n c hc
    by_cases h16 : n < 16
    · simp [toHexGo, h16] at hc
      subst hc
      exact hexChar_isLowerHex n h16
    · rw [toHexGo] at hc
      simp only [h16, if_false, List.mem_append, List.mem_singleton] at hc
      rcases hc with hc | hc
      · exact ih _ _ hc
      · subst hc
        exact hexChar_isLowerHex _ (Nat.mod_lt _ (by norm_num))

theorem toHexGo_head_ne_zero (f : Nat) :
    ∀ n, 0 < n → n < 16 ^ f → (toHexGo f n).head? ≠ some '0' := by
  induction f with
  | zero => intro n hn hb; simp at hb; omega
  | succ f ih =>
    intro n hn hb
    by_cases h16 : n < 16
    · simp only [toHexGo, h16, if_true, List.head?_cons]
      intro hcontra
      have hc : hexChar n = '0' := by injection hcontra
      interval_cases n <;> simp_all <;> exact absurd hc (by decide)
    · have hf : 1 ≤ f := by
        rcases Nat.eq_zero_or_pos f with h0 | h1
        · subst h0; simp at hb; omega
        · exact h1
      have hdiv1 : 1 ≤ n / 16 := (Nat.one_le_div_iff (by norm_num)).mpr (by omega)
      have hdiv : n / 16 < 16 ^ f := by
        rw [Nat.div_lt_iff_lt_mul (by norm_num : 0 < 16)]
        rw [pow_succ] at hb
        exact hb
      rw [toHexGo]
      simp only [h16, if_false]
      cases hgo : toHexGo f (n / 16) with
      | nil => exact absurd hgo (toHexGo_ne_nil f _ hf)
      | cons a l =>
        have := ih (n / 16) (by omega) hdiv
        rw [hgo] at this
        simpa using this

theorem toHexGo_parseHexAux (cs : List Char) :
    cs ≠ [] → (∀ c ∈ cs, isLowerHexDigit c = true) → cs.head? ≠ some '0' →
    ∀ f, cs.length ≤ f → toHexGo f (parseHexAux 0 cs) = cs := by
  induction cs using List.reverseRecOn with
  | nil => intro h; exact absurd rfl h
  | append_singleton ds c ih =>
    intro _ hhex hhead f hf
    rw [parseHexAux_append]
    cases ds with
    | nil =>
      have hc : isLowerHexDigit c = true := hhex c (by simp)
      have hv : (hexVal? c).getD 0 < 16 := lowerHex_val_lt c hc
      obtain ⟨f', rfl⟩ : ∃ f'', f = f'' + 1 := ⟨f - 1, by simp at hf; omega⟩
      simp only [List.nil_append, parseHexAux, Nat.mul_zero, Nat.zero_add]
      simp only [toHexGo, hv, if_true]
      rw [hexChar_val_roundtrip c hc]
    | cons d ds' =>
      have hd : isLowerHexDigit d = true := hhex d (by simp)
      have hdz : d ≠ '0' := by
        intro hcontra
        apply hhead
        simp [hcontra]
      have hc : isLowerHexDigit c = true := hhex c (by simp)
      have hv : (hexVal? c).getD 0 < 16 := lowerHex_val_lt c hc
      have hp1 : 1 ≤ parseHexAux 0 (d :: ds') := one_le_parseHex d ds' hd hdz
      obtain ⟨f', rfl⟩ : ∃ f'', f = f'' + 1 := ⟨f - 1, by simp at hf; omega⟩
      have hlen : (d :: ds').length ≤ f' := by
        simp only [List.length_append, List.length_cons, List.length_nil] at hf ⊢
        omega
      set p := parseHexAux 0 (d :: ds') with hpdef
      have hstep : parseHexAux p [c] = 16 * p + (hexVal? c).getD 0 := by
        simp [parseHexAux]
      rw [hstep]
      have hge : ¬(16 * p + (hexVal? c).getD 0 < 16) := by omega
      rw [toHexGo]
      simp only [hge, if_false]
      have hdiv : (16 * p + (hexVal? c).getD 0) / 16 = p := by
        rw [Nat.mul_add_div (by norm_num : 0 < 16)]
        simp [Nat.div_eq_of_lt hv]
      have hmod : (16 * p + (hexVal? c).getD 0) % 16 = (hexVal? c).getD 0 := by
        rw [Nat.mul_add_mod]
        exact Nat.mod_eq_of_lt hv
      rw [hdiv, hmod, hexChar_val_roundtrip c hc]
      have hsub : ∀ x ∈ d :: ds', isLowerHexDigit x = true := by
        intro x hx
        apply hhex
        simp only [List.cons_append, List.mem_cons, List.mem_append, List.mem_singleton]
        rcases List.mem_cons.mp hx with h | h
        · exact Or.inl h
        · exact Or.inr (Or.inl h)
      rw [ih (by simp) hsub (by simpa using hdz) f' hlen]

theorem fromStrRadix16_encode (bound v : Nat) (hvb : v < bound) (hb : bound ≤ 16 ^ 40) :
    fromStrRadix16 bound (String.mk (toHexGo 40 v)) = some v := by
  have hvf : v < 16 ^ 40 := lt_of_lt_of_le hvb hb
  have hne : toHexGo 40 v ≠ [] := toHexGo_ne_nil 40 v (by norm_num)
  cases hgo : toHexGo 40 v with
  | nil => exact absurd hgo hne
  | cons c rest =>
    have hc : isLowerHexDigit c = true := toHexGo_mem_lower 40 v c (by rw [hgo]; simp)
    obtain ⟨hplus, hminus⟩ := lowerHex_not_sign c hc
    have hstrip : stripSign (c :: rest) = (false, c :: rest) := by
      simp [stripSign, hplus, hminus]
    have hall : (c :: rest).all (fun x => (hexVal? x).isSome) = true := by
      rw [List.all_eq_true]
      intro x hx
      exact lowerHex_val_isSome x (toHexGo_mem_lower 40 v x (by rw [hgo]; exact hx))
    have hparse : parseHexAux 0 (c :: rest) = v := by
      rw [← hgo]; exact parse_toHexGo 40 v hvf
    simp only [fromStrRadix16, String.mk, hgo, hstrip]
    simp [hall, hparse, hvb]

theorem decode_encode_traceId (v : Nat) (h : v < 2 ^ 128) :
    decodeTraceId (encodeTraceId v) = v := by
  have hb : (2 : Nat) ^ 128 ≤ 16 ^ 40 := by norm_num
  unfold decodeTraceId encodeTraceId
  rw [fromStrRadix16_encode (2 ^ 128) v h hb]
  rfl

theorem decode_encode_spanId (v : Nat) (h : v < 2 ^ 64) :
    decodeSpanId (encodeSpanId v) = v := by
  have hb : (2 : Nat) ^ 64 ≤ 16 ^ 40 := by norm_num
  unfold decodeSpanId encodeSpanId
  rw [fromStrRadix16_encode (2 ^ 64) v h hb]
  rfl

theorem fromStrRadix16_getD_lt (bound : Nat) (s : String) (h : 0 < bound) :
    (fromStrRadix16 bound s).getD 0 < bound := by
  simp only [fromStrRadix16]
  split
  · simpa using h
  · split
    · split
      · split
        · split <;> simp <;> omega
        · simp
          assumption
      · simpa using h
    · simpa using h

theorem fromStrRadix16_nonhex (bound : Nat) (s : String) (c : Char)
    (hc : c ∈ s.data) (hval : hexVal? c = none) (hp : c ≠ '+') (hm : c ≠ '-') :
    fromStrRadix16 bound s = none := by
  have hmem : c ∈ (stripSign s.data).2 := by
    cases hd : s.data with
    | nil => rw [hd] at hc; simp at hc
    | cons a rest =>
      rw [hd] at hc
      by_cases ha : a = '+'
      · subst ha
        simp [stripSign]
        rcases List.mem_cons.mp hc with rfl | hmem
        · exact absurd rfl hp
        · exact hmem
      · by_cases hb : a = '-'
        · subst hb
          simp [stripSign, ha]
          rcases List.mem_cons.mp hc with rfl | hmem
          · exact absurd rfl hm
          · exact hmem
        · simpa [stripSign, ha, hb] using hc
  have hne : ¬(stripSign s.data).2.isEmpty = true := by
    intro hcontra
    rw [List.isEmpty_iff] at hcontra
    rw [hcontra] at hmem
    simp at hmem
  have hall : (stripSign s.data).2.all (fun x => (hexVal? x).isSome) = false := by
    rw [List.all_eq_false]
    exact ⟨c, hmem, by simp [hval]⟩
  simp only [fromStrRadix16, hne, if_false, hall]
  simp

/-! ### Trace-state lemmas -/

theorem validKeyGo_allowed (cs : List Char) :
    ∀ i len vs, validKeyGo cs i len vs = true → ∀ c ∈ cs, isAllowedKeyChar c = true := by
  induction cs with
  | nil =>
    intro i len vs h c hc
    simp at hc
  | cons a rest ih =>
    intro i len vs h c hc
    simp only [validKeyGo] at h
    split_ifs at h with h1 h2 h3 h4
    · have ha : isAllowedKeyChar a = true := by
        revert h1; cases isAllowedKeyChar a <;> simp
      rcases List.mem_cons.mp hc with rfl | hmem
      · exact ha
      · exact ih _ _ _ h c hmem
    · have ha : isAllowedKeyChar a = true := by
        revert h1; cases isAllowedKeyChar a <;> simp
      rcases List.mem_cons.mp hc with rfl | hmem
      · exact ha
      · cases vs with
        | some s =>
          have h5 : (if i - s > 14 then false else validKeyGo rest (i + 1) len (some s)) = true := h
          split_ifs at h5 with h6
          exact ih _ _ _ h5 c hmem
        | none => exact ih _ _ _ h c hmem

theorem validKey_allowed (k : String) (h : validKey k = true) :
    ∀ c ∈ k.data, isAllowedKeyChar c = true := by
  simp only [validKey, Bool.and_eq_true] at h
  exact validKeyGo_allowed k.data 0 k.length none h.2

theorem validKey_no_comma_eq (k : String) (h : validKey k = true) :
    ',' ∉ k.data ∧ '=' ∉ k.data := by
  have ha := validKey_allowed k h
  constructor
  · intro hmem
    exact absurd (ha _ hmem) (by decide)
  · intro hmem
    exact absurd (ha _ hmem) (by decide)

theorem validValue_no_comma_eq (v : String) (h : validValue v = true) :
    ',' ∉ v.data ∧ '=' ∉ v.data := by
  simp only [validValue, Bool.and_eq_true] at h
  obtain ⟨⟨_, hc⟩, he⟩ := h
  constructor
  · intro hmem
    have hc2 : ',' ∉ v.data := by simpa using hc
    exact hc2 hmem
  · intro hmem
    have he2 : '=' ∉ v.data := by simpa using he
    exact he2 hmem

theorem splitOnChar_not_mem (sep : Char) (cs : List Char) (h : sep ∉ cs) :
    splitOnChar sep cs = [cs] := by
  induction cs with
  | nil => rfl
  | cons c rest ih =>
    have hc : ¬(c = sep) := by
      intro hcontra
      exact h (by simp [hcontra])
    have hrest : sep ∉ rest := fun hx => h (by simp [hx])
    rw [splitOnChar]
    simp [hc, ih hrest]

theorem splitOnChar_append_sep (sep : Char) (p rest : List Char) (h : sep ∉ p) :
    splitOnChar sep (p ++ sep :: rest) = p :: splitOnChar sep rest := by
  induction p with
  | nil => simp [splitOnChar]
  | cons c p' ih =>
    have hc : ¬(c = sep) := by
      intro hcontra
      exact h (by simp [hcontra])
    have hp : sep ∉ p' := fun hx => h (by simp [hx])
    rw [List.cons_append, splitOnChar]
    simp only [hc, if_false]
    rw [ih hp]

theorem splitOnceChar_append (sep : Char) (k v : List Char) (h : sep ∉ k) :
    splitOnceChar sep (k ++ sep :: v) = some (k, v) := by
  induction k with
  | nil => simp [splitOnceChar]
  | cons c k' ih =>
    have hc : ¬(c = sep) := by
      intro hcontra
      exact h (by simp [hcontra])
    have hk : sep ∉ k' := fun hx => h (by simp [hx])
    rw [List.cons_append, splitOnceChar]
    simp [hc, ih hk]

theorem stringMk_data (s : String) : String.mk s.data = s := rfl

theorem header_roundtrip (ts : List (String × String))
    (h : ∀ kv ∈ ts, validKey kv.1 = true ∧ validValue kv.2 = true) :
    ((splitOnChar ',' (headerChars ts)).filterMap fun s =>
      (splitOnceChar '=' s).map fun p => (String.mk p.1, String.mk p.2)) = ts := by
  induction ts with
  | nil => rfl
  | cons kv rest ih =>
    obtain ⟨hk, hv⟩ := h kv (by simp)
    obtain ⟨hkc, hke⟩ := validKey_no_comma_eq kv.1 hk
    obtain ⟨hvc, hve⟩ := validValue_no_comma_eq kv.2 hv
    have hnc : ',' ∉ kv.1.data ++ '=' :: kv.2.data := by
      simp only [List.mem_append, List.mem_cons]
      push_neg
      exact ⟨hkc, by decide, hvc⟩
    cases rest with
    | nil =>
      rw [show headerChars [kv] = kv.1.data ++ '=' :: kv.2.data from rfl]
      rw [splitOnChar_not_mem ',' _ hnc]
      simp only [List.filterMap]
      rw [splitOnceChar_append '=' kv.1.data kv.2.data hke]
      simp [stringMk_data]
    | cons kv2 rest2 =>
      have hrest : ∀ x ∈ kv2 :: rest2, validKey x.1 = true ∧ validValue x.2 = true :=
        fun x hx => h x (by simp [hx])
      rw [show headerChars (kv :: kv2 :: rest2)
          = (kv.1.data ++ '=' :: kv.2.data) ++ ',' :: headerChars (kv2 :: rest2) from by
        simp [headerChars, List.append_assoc]]
      rw [splitOnChar_append_sep ',' _ _ hnc]
      rw [List.filterMap_cons]
      rw [splitOnceChar_append '=' kv.1.data kv.2.data hke]
      simp only [Option.map_some']
      rw [ih hrest]

/-! ### Option traversal lemmas -/

theorem isSome_map {α β : Type _} (f : α → β) (o : Option α) :
    (o.map f).isSome = o.isSome := by
  cases o <;> rfl

theorem optionTraverse_isSome {α β : Type _} (f : α → Option β) :
    ∀ l : List α, (∀ a ∈ l, (f a).isSome = true) → (optionTraverse f l).isSome = true := by
  intro l
  induction l with
  | nil => intro _; rfl
  | cons a as ih =>
    intro h
    obtain ⟨b, hb⟩ := Option.isSome_iff_exists.mp (h a (by simp))
    obtain ⟨bs, hbs⟩ := Option.isSome_iff_exists.mp (ih (fun x hx => h x (by simp [hx])))
    simp [optionTraverse, hb, hbs]

theorem optionTraverse_forall₂ {α β : Type _} (f : α → Option β) :
    ∀ (l : List α) (r : List β), optionTraverse f l = some r →
      List.Forall₂ (fun b a => f a = some b) r l := by
  intro l
  induction l with
  | nil =>
    intro r hr
    simp only [optionTraverse, Option.some.injEq] at hr
    subst hr
    exact List.Forall₂.nil
  | cons a as ih =>
    intro r hr
    rw [optionTraverse] at hr
    cases hfa : f a with
    | none => rw [hfa] at hr; simp at hr
    | some b =>
      cases hrest : optionTraverse f as with
      | none => rw [hfa, hrest] at hr; simp at hr
      | some bs =>
        rw [hfa, hrest] at hr
        simp only [Option.some.injEq] at hr
        subst hr
        exact List.Forall₂.cons hfa (ih bs hrest)

/-! ### Metric conversion lemmas -/

theorem metricNumberToF64_isSome (n : Wasi.MetricNumber) (h : isF64Number n = true) :
    (metricNumberToF64 n).isSome = true := by
  cases n <;> simp_all [isF64Number, metricNumberToF64]

theorem metricNumberToS64_isSome (n : Wasi.MetricNumber) (h : isS64Number n = true) :
    (metricNumberToS64 n).isSome = true := by
  cases n <;> simp_all [isS64Number, metricNumberToS64]

theorem metricNumberToU64_isSome (n : Wasi.MetricNumber) (h : isU64Number n = true) :
    (metricNumberToU64 n).isSome = true := by
  cases n <;> simp_all [isU64Number, metricNumberToU64]

theorem metricNumberToF64_none (n : Wasi.MetricNumber) (h : isF64Number n = false) :
    metricNumberToF64 n = none := by
  cases n <;> simp_all [isF64Number, metricNumberToF64]

theorem metricNumberToS64_none (n : Wasi.MetricNumber) (h : isS64Number n = false) :
    metricNumberToS64 n = none := by
  cases n <;> simp_all [isS64Number, metricNumberToS64]

theorem metricNumberToU64_none (n : Wasi.MetricNumber) (h : isU64Number n = false) :
    metricNumberToU64 n = none := by
  cases n <;> simp_all [isU64Number, metricNumberToU64]

theorem exemplarToOtel_isSome {α : Type _} (proj : Wasi.MetricNumber → Option α)
    (kind : Wasi.MetricNumber → Bool)
    (hk : ∀ n, kind n = true → (proj n).isSome = true)
    (e : Wasi.Exemplar) (h : wfExemplar kind e = true) :
    (exemplarToOtel proj e).isSome = true := by
  simp only [wfExemplar, Bool.and_eq_true, beq_iff_eq] at h
  obtain ⟨⟨hkind, hspan⟩, htrace⟩ := h
  obtain ⟨v, hv⟩ := Option.isSome_iff_exists.mp (hk _ hkind)
  simp [exemplarToOtel, hspan, htrace, hv]

theorem exemplarToOtel_none_badSpan {α : Type _} (proj : Wasi.MetricNumber → Option α)
    (e : Wasi.Exemplar) (h : e.span_id.length ≠ 8) :
    exemplarToOtel proj e = none := by
  simp [exemplarToOtel, h]

theorem exemplarToOtel_none_badTrace {α : Type _} (proj : Wasi.MetricNumber → Option α)
    (e : Wasi.Exemplar) (h : e.trace_id.length ≠ 16) :
    exemplarToOtel proj e = none := by
  rw [exemplarToOtel]
  split_ifs with h1
  · rfl
  · rfl

theorem optProj_isSome {α : Type _} (proj : Wasi.MetricNumber → Option α)
    (kind : Wasi.MetricNumber → Bool)
    (hk : ∀ n, kind n = true → (proj n).isSome = true)
    (o : Option Wasi.MetricNumber) (h : wfOptNumber kind o = true) :
    (optProj proj o).isSome = true := by
  cases o with
  | none => rfl
  | some m =>
    obtain ⟨v, hv⟩ := Option.isSome_iff_exists.mp (hk m (by simpa [wfOptNumber] using h))
    simp [optProj, hv]

theorem sumDataPointToOtel_isSome {α : Type _} (proj : Wasi.MetricNumber → Option α)
    (kind : Wasi.MetricNumber → Bool)
    (hk : ∀ n, kind n = true → (proj n).isSome = true)
    (dp : Wasi.DataPoint) (h : wfDataPoint kind dp = true) :
    (sumDataPointToOtel proj dp).isSome = true := by
  simp only [wfDataPoint, Bool.and_eq_true, List.all_eq_true] at h
  obtain ⟨hval, hex⟩ := h
  obtain ⟨es, hes⟩ := Option.isSome_iff_exists.mp
    (optionTraverse_isSome (exemplarToOtel proj) dp.exemplars
      (fun e he => exemplarToOtel_isSome proj kind hk e (hex e he)))
  obtain ⟨v, hv⟩ := Option.isSome_iff_exists.mp (hk _ hval)
  simp [sumDataPointToOtel, hes, hv]

theorem gaugeDataPointToOtel_isSome {α : Type _} (proj : Wasi.MetricNumber → Option α)
    (kind : Wasi.MetricNumber → Bool)
    (hk : ∀ n, kind n = true → (proj n).isSome = true)
    (dp : Wasi.DataPoint) (h : wfDataPoint kind dp = true) :
    (gaugeDataPointToOtel proj dp).isSome = true := by
  simp only [wfDataPoint, Bool.and_eq_true, List.all_eq_true] at h
  obtain ⟨hval, hex⟩ := h
  obtain ⟨es, hes⟩ := Option.isSome_iff_exists.mp
    (optionTraverse_isSome (exemplarToOtel proj) dp.exemplars
      (fun e he => exemplarToOtel_isSome proj kind hk e (hex e he)))
  obtain ⟨v, hv⟩ := Option.isSome_iff_exists.mp (hk _ hval)
  simp [gaugeDataPointToOtel, hes, hv]

theorem histogramDataPointToOtel_isSome {α : Type _} (proj : Wasi.MetricNumber → Option α)
    (kind : Wasi.MetricNumber → Bool)
    (hk : ∀ n, kind n = true → (proj n).isSome = true)
    (dp : Wasi.HistogramDataPoint) (h : wfHistogramDataPoint kind dp = true) :
    (histogramDataPointToOtel proj dp).isSome = true := by
  simp only [wfHistogramDataPoint, Bool.and_eq_true, List.all_eq_true] at h
  obtain ⟨⟨⟨hsum, hmax⟩, hmin⟩, hex⟩ := h
  obtain ⟨es, hes⟩ := Option.isSome_iff_exists.mp
    (optionTraverse_isSome (exemplarToOtel proj) dp.exemplars
      (fun e he => exemplarToOtel_isSome proj kind hk e (hex e he)))
  obtain ⟨v, hv⟩ := Option.isSome_iff_exists.mp (hk _ hsum)
  obtain ⟨mx, hmx⟩ := Option.isSome_iff_exists.mp (optProj_isSome proj kind hk dp.max hmax)
  obtain ⟨mn, hmn⟩ := Option.isSome_iff_exists.mp (optProj_isSome proj kind hk dp.min hmin)
  simp [histogramDataPointToOtel, hes, hv, hmx, hmn]

theorem expHistogramDataPointToOtel_isSome {α : Type _} (proj : Wasi.MetricNumber → Option α)
    (kind : Wasi.MetricNumber → Bool)
    (hk : ∀ n, kind n = true → (proj n).isSome = true)
    (dp : Wasi.ExponentialHistogramDataPoint) (h : wfExpHistogramDataPoint kind dp = true) :
    (expHistogramDataPointToOtel proj dp).isSome = true := by
  simp only [wfExpHistogramDataPoint, Bool.and_eq_true, List.all_eq_true] at h
  obtain ⟨⟨⟨hsum, hmax⟩, hmin⟩, hex⟩ := h
  obtain ⟨es, hes⟩ := Option.isSome_iff_exists.mp
    (optionTraverse_isSome (exemplarToOtel proj) dp.exemplars
      (fun e he => exemplarToOtel_isSome proj kind hk e (hex e he)))
  obtain ⟨v, hv⟩ := Option.isSome_iff_exists.mp (hk _ hsum)
  obtain ⟨mx, hmx⟩ := Option.isSome_iff_exists.mp (optProj_isSome proj kind hk dp.max hmax)
  obtain ⟨mn, hmn⟩ := Option.isSome_iff_exists.mp (optProj_isSome proj kind hk dp.min hmin)
  simp [expHistogramDataPointToOtel, hes, hv, hmx, hmn]

theorem wasiSumToOtel_isSome {α : Type _} (proj : Wasi.MetricNumber → Option α)
    (kind : Wasi.MetricNumber → Bool)
    (hk : ∀ n, kind n = true → (proj n).isSome = true)
    (s : Wasi.Sum) (h : wfSum kind s = true) :
    (wasiSumToOtel proj s).isSome = true := by
  simp only [wfSum, List.all_eq_true] at h
  have := optionTraverse_isSome (sumDataPointToOtel proj) s.data_points
    (fun dp hdp => sumDataPointToOtel_isSome proj kind hk dp (h dp hdp))
  simpa [wasiSumToOtel, isSome_map] using this

theorem wasiGaugeToOtel_isSome {α : Type _} (proj : Wasi.MetricNumber → Option α)
    (kind : Wasi.MetricNumber → Bool)
    (hk : ∀ n, kind n = true → (proj n).isSome = true)
    (g : Wasi.Gauge) (h : wfGauge kind g = true) :
    (wasiGaugeToOtel proj g).isSome = true := by
  simp only [wfGauge, List.all_eq_true] at h
  have := optionTraverse_isSome (gaugeDataPointToOtel proj) g.data_points
    (fun dp hdp => gaugeDataPointToOtel_isSome proj kind hk dp (h dp hdp))
  simpa [wasiGaugeToOtel, isSome_map] using this

theorem wasiHistogramToOtel_isSome {α : Type _} (proj : Wasi.MetricNumber → Option α)
    (kind : Wasi.MetricNumber → Bool)
    (hk : ∀ n, kind n = true → (proj n).isSome = true)
    (hg : Wasi.Histogram) (h : wfHistogram kind hg = true) :
    (wasiHistogramToOtel proj hg).isSome = true := by
  simp only [wfHistogram, List.all_eq_true] at h
  have := optionTraverse_isSome (histogramDataPointToOtel proj) hg.data_points
    (fun dp hdp => histogramDataPointToOtel_isSome proj kind hk dp (h dp hdp))
  simpa [wasiHistogramToOtel, isSome_map] using this

theorem wasiExpHistogramToOtel_isSome {α : Type _} (proj : Wasi.MetricNumber → Option α)
    (kind : Wasi.MetricNumber → Bool)
    (hk : ∀ n, kind n = true → (proj n).isSome = true)
    (hg : Wasi.ExponentialHistogram) (h : wfExpHistogram kind hg = true) :
    (wasiExpHistogramToOtel proj hg).isSome = true := by
  simp only [wfExpHistogram, List.all_eq_true] at h
  have := optionTraverse_isSome (expHistogramDataPointToOtel proj) hg.data_points
    (fun dp hdp => expHistogramDataPointToOtel_isSome proj kind hk dp (h dp hdp))
  simpa [wasiExpHistogramToOtel, isSome_map] using this

theorem sumDataPointToOtel_value {α : Type _} (proj : Wasi.MetricNumber → Option α)
    (dp : Wasi.DataPoint) (o : Otel.SumDataPoint α)
    (h : sumDataPointToOtel proj dp = some o) : proj dp.value = some o.value := by
  rw [sumDataPointToOtel] at h
  cases ht : optionTraverse (exemplarToOtel proj) dp.exemplars with
  | none => rw [ht] at h; simp at h
  | some es =>
    cases hv : proj dp.value with
    | none => rw [ht, hv] at h; simp at h
    | some v =>
      rw [ht, hv] at h
      simp only [Option.some.injEq] at h
      subst h
      simp [hv]

theorem wasiSumToOtel_eq {α : Type _} (proj : Wasi.MetricNumber → Option α)
    (s : Wasi.Sum) (t : Otel.Sum α) (h : wasiSumToOtel proj s = some t) :
    ∃ dps, optionTraverse (sumDataPointToOtel proj) s.data_points = some dps ∧
      t = { data_points := dps,
            start_time := dtToSystemTime s.start_time,
            time := dtToSystemTime s.time,
            temporality := temporalityToOtel s.temporality,
            is_monotonic := s.is_monotonic } := by
  rw [wasiSumToOtel] at h
  cases htr : optionTraverse (sumDataPointToOtel proj) s.data_points with
  | none => rw [htr] at h; simp at h
  | some dps =>
    rw [htr] at h
    simp only [Option.map_some', Option.some.injEq] at h
    exact ⟨dps, rfl, h.symm⟩

/-! ### Claim theorems -/

/-- Claim C7: the scalar value conversion is total with no failure mode.  It
is a plain (total) function in both source copies, the two copies agree, and
each of the eight guest `Value` variants maps to exactly one host value: the
four scalars map to the corresponding host scalars, the arrays map to the
host array wrapper of the corresponding scalar type, and string arrays are
additionally wrapped element-wise as host string values. -/
theorem valueConversionTotal :
    (∀ v, valueToOtel v = commonValueToOtel v)
    ∧ (∀ s, valueToOtel (.string s) = .string ⟨s⟩)
    ∧ (∀ b, valueToOtel (.bool b) = .bool b)
    ∧ (∀ x, valueToOtel (.f64 x) = .f64 x)
    ∧ (∀ n, valueToOtel (.s64 n) = .s64 n)
    ∧ (∀ l, valueToOtel (.stringArray l) = .array (.strings (l.map fun s => ⟨s⟩)))
    ∧ (∀ l, valueToOtel (.boolArray l) = .array (.bools l))
    ∧ (∀ l, valueToOtel (.f64Array l) = .array (.f64s l))
    ∧ (∀ l, valueToOtel (.s64Array l) = .array (.s64s l)) := by
  refine ⟨fun v => ?_, fun _ => rfl, fun _ => rfl, fun _ => rfl, fun _ => rfl,
    fun _ => rfl, fun _ => rfl, fun _ => rfl, fun _ => rfl⟩
  cases v <;> rfl

/-- Claim C9: the dropped-attribute, dropped-event and dropped-link counts of
a guest span are copied into the host span unchanged, and the converted event
and link lists have the same lengths as the guest lists (so a span with
`dropped_events = 3` and two events yields `dropped_count = 3` and two
events). -/
theorem droppedCountPassthrough (sd : Wasi.SpanData) :
    (spanDataToOtel sd).events.dropped_count = sd.dropped_events
    ∧ (spanDataToOtel sd).links.dropped_count = sd.dropped_links
    ∧ (spanDataToOtel sd).dropped_attributes_count = sd.dropped_attributes
    ∧ (spanDataToOtel sd).events.events.length = sd.events.length
    ∧ (spanDataToOtel sd).links.links.length = sd.links.length := by
  refine ⟨rfl, rfl, rfl, ?_, ?_⟩ <;> simp [spanDataToOtel]

/-- Claim C10: the per-event and per-link dropped-attributes count of every
converted host event and link is the hardcoded 0, regardless of the guest
input. -/
theorem eventLinkDroppedZero :
    (∀ e : Wasi.Event, (eventToOtel e).dropped_attributes_count = 0)
    ∧ (∀ l : Wasi.Link, (linkToOtel l).dropped_attributes_count = 0) :=
  ⟨fun _ => rfl, fun _ => rfl⟩

/-- Claim C4 counterexample: the trace-flags round trip fails on the `u8`
flags value 2 (a valid host trace-flags value): encoding to the guest keeps
only the sampled bit, so decoding yields 0, not 2. -/
theorem traceFlagsRoundtripCex :
    traceFlagsToOtel (traceFlagsToWasi 2) ≠ 2 := by decide

/-- Claim C4 (amended): the trace-flags round trip `decode(encode(f)) == f`
holds exactly for the flag values representable in the guest, namely 0
(empty) and 1 (sampled only); any other set bit of the host `u8` is dropped
by the host-to-guest conversion. -/
theorem traceFlagsRoundtripSampled (f : Nat) (h : f = 0 ∨ f = 1) :
    traceFlagsToOtel (traceFlagsToWasi f) = f := by
  rcases h with rfl | rfl <;> rfl

/-- Witness for C4 at `f = 1`. -/
theorem traceFlagsRoundtripSampledWitness :
    ((1 : Nat) = 0 ∨ (1 : Nat) = 1) ∧ traceFlagsToOtel (traceFlagsToWasi 1) = 1 :=
  ⟨Or.inr rfl, traceFlagsRoundtripSampled 1 (Or.inr rfl)⟩

/-- Claim C5 counterexample: encoding the host span context with trace id 1
and span id 1 produces the strings "1"/"1", not 32- and 16-character
zero-padded hex: the formatter is unpadded. -/
theorem encodeUnpaddedCex :
    (spanContextToWasi scSmallIds).trace_id.length ≠ 32
    ∧ (spanContextToWasi scSmallIds).span_id.length ≠ 16 := by
  constructor <;> decide

/-- Claim C5 (amended): encoding a host span context's identifiers always
succeeds and produces lowercase hexadecimal text, but in the minimal
(unpadded) width: at most 32 characters for the trace id and at most 16 for
the span id, at least one character, and with no leading zero (except that
the value 0 encodes as "0"); it is not zero-padded on the left. -/
theorem encodeHexShape (sc : Otel.SpanContext)
    (h1 : sc.trace_id < 2 ^ 128) (h2 : sc.span_id < 2 ^ 64) :
    (1 ≤ (spanContextToWasi sc).trace_id.length
      ∧ (spanContextToWasi sc).trace_id.length ≤ 32
      ∧ (∀ c ∈ (spanContextToWasi sc).trace_id.data, isLowerHexDigit c = true)
      ∧ (sc.trace_id ≠ 0 → (spanContextToWasi sc).trace_id.data.head? ≠ some '0'))
    ∧ (1 ≤ (spanContextToWasi sc).span_id.length
      ∧ (spanContextToWasi sc).span_id.length ≤ 16
      ∧ (∀ c ∈ (spanContextToWasi sc).span_id.data, isLowerHexDigit c = true)
      ∧ (sc.span_id ≠ 0 → (spanContextToWasi sc).span_id.data.head? ≠ some '0')) := by
  have ht32 : sc.trace_id < 16 ^ 32 := by
    calc sc.trace_id < 2 ^ 128 := h1
    _ = 16 ^ 32 := by norm_num
  have hs16 : sc.span_id < 16 ^ 16 := by
    calc sc.span_id < 2 ^ 64 := h2
    _ = 16 ^ 16 := by norm_num
  have ht40 : sc.trace_id < 16 ^ 40 := lt_of_lt_of_le ht32 (by norm_num)
  have hs40 : sc.span_id < 16 ^ 40 := lt_of_lt_of_le hs16 (by norm_num)
  constructor
  · refine ⟨?_, ?_, ?_, ?_⟩
    · show 1 ≤ (toHexGo 40 sc.trace_id).length
      have := toHexGo_ne_nil 40 sc.trace_id (by norm_num)
      have hpos := List.length_pos.mpr this
      omega
    · show (toHexGo 40 sc.trace_id).length ≤ 32
      exact toHexGo_length 40 32 sc.trace_id (by norm_num) (by norm_num) ht32
    · show ∀ c ∈ toHexGo 40 sc.trace_id, isLowerHexDigit c = true
      exact fun c hc => toHexGo_mem_lower 40 sc.trace_id c hc
    · intro hz
      show (toHexGo 40 sc.trace_id).head? ≠ some '0'
      exact toHexGo_head_ne_zero 40 sc.trace_id (Nat.pos_of_ne_zero hz) ht40
  · refine ⟨?_, ?_, ?_, ?_⟩
    · show 1 ≤ (toHexGo 40 sc.span_id).length
      have := toHexGo_ne_nil 40 sc.span_id (by norm_num)
      have hpos := List.length_pos.mpr this
      omega
    · show (toHexGo 40 sc.span_id).length ≤ 16
      exact toHexGo_length 40 16 sc.span_id (by norm_num) (by norm_num) hs16
    · show ∀ c ∈ toHexGo 40 sc.span_id, isLowerHexDigit c = true
      exact fun c hc => toHexGo_mem_lower 40 sc.span_id c hc
    · intro hz
      show (toHexGo 40 sc.span_id).head? ≠ some '0'
      exact toHexGo_head_ne_zero 40 sc.span_id (Nat.pos_of_ne_zero hz) hs40

/-- Witness for C5 at a concrete host span context. -/
theorem encodeHexShapeWitness :
    (scRound.trace_id < 2 ^ 128 ∧ scRound.span_id < 2 ^ 64)
    ∧ ((1 ≤ (spanContextToWasi scRound).trace_id.length
        ∧ (spanContextToWasi scRound).trace_id.length ≤ 32
        ∧ (∀ c ∈ (spanContextToWasi scRound).trace_id.data, isLowerHexDigit c = true)
        ∧ (scRound.trace_id ≠ 0 → (spanContextToWasi scRound).trace_id.data.head? ≠ some '0'))
      ∧ (1 ≤ (spanContextToWasi scRound).span_id.length
        ∧ (spanContextToWasi scRound).span_id.length ≤ 16
        ∧ (∀ c ∈ (spanContextToWasi scRound).span_id.data, isLowerHexDigit c = true)
        ∧ (scRound.span_id ≠ 0 → (spanContextToWasi scRound).span_id.data.head? ≠ some '0'))) :=
  ⟨⟨by decide, by decide⟩, encodeHexShape scRound (by decide) (by decide)⟩

theorem fromStrRadix16_canonical (bound : Nat) (s : String) (hne : s.data ≠ [])
    (hhex : ∀ c ∈ s.data, isLowerHexDigit c = true)
    (hlt : parseHexAux 0 s.data < bound) :
    fromStrRadix16 bound s = some (parseHexAux 0 s.data) := by
  cases hd : s.data with
  | nil => exact absurd hd hne
  | cons c rest =>
    have hc : isLowerHexDigit c = true := hhex c (by rw [hd]; simp)
    obtain ⟨hp, hm⟩ := lowerHex_not_sign c hc
    have hstrip : stripSign (c :: rest) = (false, c :: rest) := by
      simp [stripSign, hp, hm]
    have hall : (c :: rest).all (fun x => (hexVal? x).isSome) = true := by
      rw [List.all_eq_true]
      intro x hx
      exact lowerHex_val_isSome x (hhex x (by rw [hd]; exact hx))
    rw [hd] at hlt
    simp only [fromStrRadix16, hd, hstrip]
    simp [hall, hlt]

/-- Claim C6 counterexample: `hexPadded32` is a well-formed lowercase hex
string of length 32 (a legal trace id text), but because the encoder is
unpadded, `encode(decode(x))` drops its leading zero and differs from `x`. -/
theorem encodeDecodeLeadingZeroCex :
    hexPadded32.length = 32
    ∧ (∀ c ∈ hexPadded32.data, isLowerHexDigit c = true)
    ∧ encodeTraceId (decodeTraceId hexPadded32) ≠ hexPadded32 := by
  refine ⟨by decide, by decide, by decide⟩

/-- Claim C6 (amended): `encode(decode(x)) == x` holds for every lowercase
hex string of the correct length (32 for trace ids, 16 for span ids) whose
leading digit is nonzero, i.e. for the strings that are themselves the
unpadded encoding of their value; and the decode direction is total: every
text input yields an in-range identifier (the sentinel on failure). -/
theorem encodeDecodeCanonical (s t u : String)
    (hs32 : s.length = 32) (hshex : ∀ c ∈ s.data, isLowerHexDigit c = true)
    (hs0 : s.data.head? ≠ some '0')
    (ht16 : t.length = 16) (hthex : ∀ c ∈ t.data, isLowerHexDigit c = true)
    (ht0 : t.data.head? ≠ some '0') :
    encodeTraceId (decodeTraceId s) = s
    ∧ encodeSpanId (decodeSpanId t) = t
    ∧ decodeTraceId u < 2 ^ 128
    ∧ decodeSpanId u < 2 ^ 64 := by
  have hslen : s.data.length = 32 := hs32
  have htlen : t.data.length = 16 := ht16
  have hsne : s.data ≠ [] := by
    intro hcontra
    rw [hcontra] at hslen
    simp at hslen
  have htne : t.data ≠ [] := by
    intro hcontra
    rw [hcontra] at htlen
    simp at htlen
  have hsparse : parseHexAux 0 s.data < 2 ^ 128 := by
    have := parseHex_lt_of_lower s.data hshex
    rw [hslen] at this
    calc parseHexAux 0 s.data < 16 ^ 32 := this
    _ = 2 ^ 128 := by norm_num
  have htparse : parseHexAux 0 t.data < 2 ^ 64 := by
    have := parseHex_lt_of_lower t.data hthex
    rw [htlen] at this
    calc parseHexAux 0 t.data < 16 ^ 16 := this
    _ = 2 ^ 64 := by norm_num
  refine ⟨?_, ?_, ?_, ?_⟩
  · unfold decodeTraceId encodeTraceId
    rw [fromStrRadix16_canonical (2 ^ 128) s hsne hshex hsparse]
    simp only [Option.getD_some]
    rw [toHexGo_parseHexAux s.data hsne hshex hs0 40 (by omega)]
  · unfold decodeSpanId encodeSpanId
    rw [fromStrRadix16_canonical (2 ^ 64) t htne hthex htparse]
    simp only [Option.getD_some]
    rw [toHexGo_parseHexAux t.data htne hthex ht0 40 (by omega)]
  · exact fromStrRadix16_getD_lt (2 ^ 128) u (by norm_num)
  · exact fromStrRadix16_getD_lt (2 ^ 64) u (by norm_num)

/-- Witness for C6 at concrete canonical hex strings. -/
theorem encodeDecodeCanonicalWitness :
    (hexCanon32.length = 32 ∧ (∀ c ∈ hexCanon32.data, isLowerHexDigit c = true)
      ∧ hexCanon32.data.head? ≠ some '0'
      ∧ hexCanon16.length = 16 ∧ (∀ c ∈ hexCanon16.data, isLowerHexDigit c = true)
      ∧ hexCanon16.data.head? ≠ some '0')
    ∧ (encodeTraceId (decodeTraceId hexCanon32) = hexCanon32
      ∧ encodeSpanId (decodeSpanId hexCanon16) = hexCanon16
      ∧ decodeTraceId "" < 2 ^ 128
      ∧ decodeSpanId "" < 2 ^ 64) :=
  ⟨⟨by decide, by decide, by decide, by decide, by decide, by decide⟩,
   encodeDecodeCanonical hexCanon32 hexCanon16 ""
     (by decide) (by decide) (by decide) (by decide) (by decide) (by decide)⟩

/-- Claim C2 counterexample: the trace-id text "ff" is malformed by length
(2 characters, not 32), yet the conversion does not substitute the all-zero
invalid sentinel: `from_hex` has no length check, so it parses to 255. -/
theorem spanContextLenientDecodeCex :
    wasiScShortHex.trace_id.length = 2
    ∧ (spanContextToOtel wasiScShortHex).trace_id = 255
    ∧ (255 : Nat) ≠ 0 := by
  refine ⟨by decide, by decide, by decide⟩

/-- Claim C2 (amended): the guest-to-host span conversions never fail — a
host value with in-range identifiers is always produced (including the
parent span id) — and the fallbacks are: a non-hex character (other than one
leading sign) in an id text yields the all-zero sentinel, numeric overflow
(e.g. 33 `f` digits) yields the sentinel, and a trace-state that fails host
validation is replaced by the empty trace-state.  However, a wrong-length
all-hex text is not sent to the sentinel: it parses to its numeric value
(e.g. "ff" decodes to 255). -/
theorem guestToHostConversionTotal
    (sc sc2 : Wasi.SpanContext) (sd : Wasi.SpanData) (s : String) (c : Char)
    (hc : c ∈ s.data) (hval : hexVal? c = none) (hp : c ≠ '+') (hm : c ≠ '-')
    (hts : sc2.trace_state.all (fun kv => validKey kv.1 && validValue kv.2) = false) :
    ((spanContextToOtel sc).trace_id < 2 ^ 128
      ∧ (spanContextToOtel sc).span_id < 2 ^ 64
      ∧ (spanDataToOtel sd).parent_span_id < 2 ^ 64)
    ∧ decodeTraceId s = 0
    ∧ decodeSpanId s = 0
    ∧ (spanContextToOtel sc2).trace_state = []
    ∧ decodeTraceId "ff" = 255
    ∧ decodeTraceId (String.mk (List.replicate 33 'f')) = 0 := by
  refine ⟨⟨?_, ?_, ?_⟩, ?_, ?_, ?_, by decide, by decide⟩
  · show (fromStrRadix16 (2 ^ 128) sc.trace_id).getD 0 < 2 ^ 128
    exact fromStrRadix16_getD_lt (2 ^ 128) sc.trace_id (by norm_num)
  · show (fromStrRadix16 (2 ^ 64) sc.span_id).getD 0 < 2 ^ 64
    exact fromStrRadix16_getD_lt (2 ^ 64) sc.span_id (by norm_num)
  · show (fromStrRadix16 (2 ^ 64) sd.parent_span_id).getD 0 < 2 ^ 64
    exact fromStrRadix16_getD_lt (2 ^ 64) sd.parent_span_id (by norm_num)
  · show (fromStrRadix16 (2 ^ 128) s).getD 0 = 0
    rw [fromStrRadix16_nonhex (2 ^ 128) s c hc hval hp hm]
    rfl
  · show (fromStrRadix16 (2 ^ 64) s).getD 0 = 0
    rw [fromStrRadix16_nonhex (2 ^ 64) s c hc hval hp hm]
    rfl
  · show (traceStateFromKeyValue sc2.trace_state).getD [] = []
    simp [traceStateFromKeyValue, hts]

/-- Witness for C2 at concrete inputs (non-hex text "zz", a trace-state with
an invalid uppercase key). -/
theorem guestToHostConversionTotalWitness :
    ('z' ∈ ("zz" : String).data ∧ hexVal? 'z' = none ∧ 'z' ≠ '+' ∧ 'z' ≠ '-'
      ∧ wasiScBadState.trace_state.all (fun kv => validKey kv.1 && validValue kv.2) = false)
    ∧ (((spanContextToOtel wasiScEmptyIds).trace_id < 2 ^ 128
        ∧ (spanContextToOtel wasiScEmptyIds).span_id < 2 ^ 64
        ∧ (spanDataToOtel sdSample).parent_span_id < 2 ^ 64)
      ∧ decodeTraceId "zz" = 0
      ∧ decodeSpanId "zz" = 0
      ∧ (spanContextToOtel wasiScBadState).trace_state = []
      ∧ decodeTraceId "ff" = 255
      ∧ decodeTraceId (String.mk (List.replicate 33 'f')) = 0) :=
  ⟨⟨by decide, by decide, by decide, by decide, by decide⟩,
   guestToHostConversionTotal wasiScEmptyIds wasiScBadState sdSample "zz" 'z'
     (by decide) (by decide) (by decide) (by decide) (by decide)⟩

/-- Claim C3 counterexample: a host span context whose trace-state is empty
(so its values trivially contain no comma or equals sign) and whose ids are
in range, but whose `u8` trace flags are 2, does not survive the
host-to-guest-to-host round trip: only the sampled bit is propagated. -/
theorem spanContextRoundtripFlagsCex :
    spanContextToOtel (spanContextToWasi scFlagsTwo) ≠ scFlagsTwo := by decide

/-- Claim C3 (amended): the host-to-guest-to-host span-context round trip
holds for every host span context whose identifiers are in range, whose
trace flags are representable in the guest (0 or empty, 1 or sampled), and
whose trace-state entries pass host validation (valid keys; values of at
most 256 characters containing no comma and no equals sign). -/
theorem spanContextRoundtrip (sc : Otel.SpanContext)
    (h1 : sc.trace_id < 2 ^ 128) (h2 : sc.span_id < 2 ^ 64)
    (h3 : sc.trace_flags = 0 ∨ sc.trace_flags = 1)
    (h4 : ∀ kv ∈ sc.trace_state, validKey kv.1 = true ∧ validValue kv.2 = true) :
    spanContextToOtel (spanContextToWasi sc) = sc := by
  have hts := header_roundtrip sc.trace_state h4
  have hvalid : sc.trace_state.all (fun kv => validKey kv.1 && validValue kv.2) = true := by
    rw [List.all_eq_true]
    intro kv hkv
    obtain ⟨a, b⟩ := h4 kv hkv
    simp [a, b]
  obtain ⟨tid, sid, fl, rem, ts⟩ := sc
  simp only at h1 h2 h3 hts hvalid
  simp only [spanContextToWasi, spanContextToOtel, Otel.SpanContext.mk.injEq]
  refine ⟨decode_encode_traceId tid h1, decode_encode_spanId sid h2, ?_, trivial, ?_⟩
  · rcases h3 with rfl | rfl <;> rfl
  · rw [hts]
    simp [traceStateFromKeyValue, hvalid]

/-- Witness for C3 at a concrete host span context with a nonempty valid
trace-state. -/
theorem spanContextRoundtripWitness :
    (scRound.trace_id < 2 ^ 128 ∧ scRound.span_id < 2 ^ 64
      ∧ (scRound.trace_flags = 0 ∨ scRound.trace_flags = 1)
      ∧ (∀ kv ∈ scRound.trace_state, validKey kv.1 = true ∧ validValue kv.2 = true))
    ∧ spanContextToOtel (spanContextToWasi scRound) = scRound :=
  ⟨⟨by decide, by decide, by decide, by decide⟩,
   spanContextRoundtrip scRound (by decide) (by decide) (by decide) (by decide)⟩

/-- Claim C1: the numeric-kind projections abort (modelled as `none`) exactly
when the `MetricNumber` carries a different variant than the declared kind,
and the exemplar conversion aborts when the span-id byte sequence is not
exactly 8 bytes or the trace-id byte sequence is not exactly 16 bytes; under
the schema precondition (every data point and exemplar value carries the
declared kind, every exemplar identifier has the fixed byte length), every
one of the twelve metric-data variants converts to a host aggregation. -/
theorem metricConversionPanicPolicy
    (md : Wasi.MetricData) (n1 n2 n3 : Wasi.MetricNumber) (e1 e2 : Wasi.Exemplar)
    (hmd : wfMetricData md = true)
    (h1 : isF64Number n1 = false) (h2 : isU64Number n2 = false)
    (h3 : isS64Number n3 = false)
    (he1 : e1.span_id.length ≠ 8) (he2 : e2.trace_id.length ≠ 16) :
    (metricDataToOtel md).isSome = true
    ∧ metricNumberToF64 n1 = none
    ∧ metricNumberToU64 n2 = none
    ∧ metricNumberToS64 n3 = none
    ∧ exemplarToOtel metricNumberToF64 e1 = none
    ∧ exemplarToOtel metricNumberToS64 e1 = none
    ∧ exemplarToOtel metricNumberToU64 e1 = none
    ∧ exemplarToOtel metricNumberToF64 e2 = none
    ∧ exemplarToOtel metricNumberToS64 e2 = none
    ∧ exemplarToOtel metricNumberToU64 e2 = none := by
  refine ⟨?_, metricNumberToF64_none n1 h1, metricNumberToU64_none n2 h2,
    metricNumberToS64_none n3 h3,
    exemplarToOtel_none_badSpan _ e1 he1, exemplarToOtel_none_badSpan _ e1 he1,
    exemplarToOtel_none_badSpan _ e1 he1,
    exemplarToOtel_none_badTrace _ e2 he2, exemplarToOtel_none_badTrace _ e2 he2,
    exemplarToOtel_none_badTrace _ e2 he2⟩
  cases md with
  | f64Sum s =>
    simp only [wfMetricData] at hmd
    simp only [metricDataToOtel, isSome_map]
    exact wasiSumToOtel_isSome metricNumberToF64 isF64Number metricNumberToF64_isSome s hmd
  | s64Sum s =>
    simp only [wfMetricData] at hmd
    simp only [metricDataToOtel, isSome_map]
    exact wasiSumToOtel_isSome metricNumberToS64 isS64Number metricNumberToS64_isSome s hmd
  | u64Sum s =>
    simp only [wfMetricData] at hmd
    simp only [metricDataToOtel, isSome_map]
    exact wasiSumToOtel_isSome metricNumberToU64 isU64Number metricNumberToU64_isSome s hmd
  | f64Gauge g =>
    simp only [wfMetricData] at hmd
    simp only [metricDataToOtel, isSome_map]
    exact wasiGaugeToOtel_isSome metricNumberToF64 isF64Number metricNumberToF64_isSome g hmd
  | s64Gauge g =>
    simp only [wfMetricData] at hmd
    simp only [metricDataToOtel, isSome_map]
    exact wasiGaugeToOtel_isSome metricNumberToS64 isS64Number metricNumberToS64_isSome g hmd
  | u64Gauge g =>
    simp only [wfMetricData] at hmd
    simp only [metricDataToOtel, isSome_map]
    exact wasiGaugeToOtel_isSome metricNumberToU64 isU64Number metricNumberToU64_isSome g hmd
  | f64Histogram h =>
    simp only [wfMetricData] at hmd
    simp only [metricDataToOtel, isSome_map]
    exact wasiHistogramToOtel_isSome metricNumberToF64 isF64Number metricNumberToF64_isSome h hmd
  | s64Histogram h =>
    simp only [wfMetricData] at hmd
    simp only [metricDataToOtel, isSome_map]
    exact wasiHistogramToOtel_isSome metricNumberToS64 isS64Number metricNumberToS64_isSome h hmd
  | u64Histogram h =>
    simp only [wfMetricData] at hmd
    simp only [metricDataToOtel, isSome_map]
    exact wasiHistogramToOtel_isSome metricNumberToU64 isU64Number metricNumberToU64_isSome h hmd
  | f64ExponentialHistogram h =>
    simp only [wfMetricData] at hmd
    simp only [metricDataToOtel, isSome_map]
    exact wasiExpHistogramToOtel_isSome metricNumberToF64 isF64Number
      metricNumberToF64_isSome h hmd
  | s64ExponentialHistogram h =>
    simp only [wfMetricData] at hmd
    simp only [metricDataToOtel, isSome_map]
    exact wasiExpHistogramToOtel_isSome metricNumberToS64 isS64Number
      metricNumberToS64_isSome h hmd
  | u64ExponentialHistogram h =>
    simp only [wfMetricData] at hmd
    simp only [metricDataToOtel, isSome_map]
    exact wasiExpHistogramToOtel_isSome metricNumberToU64 isU64Number
      metricNumberToU64_isSome h hmd

/-- Witness for C1 at a concrete well-formed `F64Sum` payload, mismatched
numbers, and short exemplar identifiers. -/
theorem metricConversionPanicPolicyWitness :
    (wfMetricData mdF64Sum = true
      ∧ isF64Number (Wasi.MetricNumber.s64 0) = false
      ∧ isU64Number (Wasi.MetricNumber.f64 ⟨0⟩) = false
      ∧ isS64Number (Wasi.MetricNumber.u64 0) = false
      ∧ exemplarBadSpan.span_id.length ≠ 8
      ∧ exemplarBadTrace.trace_id.length ≠ 16)
    ∧ ((metricDataToOtel mdF64Sum).isSome = true
      ∧ metricNumberToF64 (Wasi.MetricNumber.s64 0) = none
      ∧ metricNumberToU64 (Wasi.MetricNumber.f64 ⟨0⟩) = none
      ∧ metricNumberToS64 (Wasi.MetricNumber.u64 0) = none
      ∧ exemplarToOtel metricNumberToF64 exemplarBadSpan = none
      ∧ exemplarToOtel metricNumberToS64 exemplarBadSpan = none
      ∧ exemplarToOtel metricNumberToU64 exemplarBadSpan = none
      ∧ exemplarToOtel metricNumberToF64 exemplarBadTrace = none
      ∧ exemplarToOtel metricNumberToS64 exemplarBadTrace = none
      ∧ exemplarToOtel metricNumberToU64 exemplarBadTrace = none) :=
  ⟨⟨by decide, by decide, by decide, by decide, by decide, by decide⟩,
   metricConversionPanicPolicy mdF64Sum (Wasi.MetricNumber.s64 0)
     (Wasi.MetricNumber.f64 ⟨0⟩) (Wasi.MetricNumber.u64 0)
     exemplarBadSpan exemplarBadTrace
     (by decide) (by decide) (by decide) (by decide) (by decide) (by decide)⟩

/-- Claim C8: converting an `F64Sum` metric whose data points (including
their exemplars) conform to the declared `f64` kind yields a host sum over
`f64` with the same number of data points, each converted value bit-for-bit
equal to the source float, and the temporality and monotonicity flag copied
through one-to-one. -/
theorem f64SumFidelity (s : Wasi.Sum) (h : wfSum isF64Number s = true) :
    ∃ t : Otel.Sum F64, metricDataToOtel (.f64Sum s) = some (.f64Sum t)
      ∧ t.data_points.length = s.data_points.length
      ∧ List.Forall₂ (fun (o : Otel.SumDataPoint F64) dp =>
          metricNumberToF64 dp.value = some o.value) t.data_points s.data_points
      ∧ t.temporality = temporalityToOtel s.temporality
      ∧ t.is_monotonic = s.is_monotonic := by
  have hs := wasiSumToOtel_isSome metricNumberToF64 isF64Number metricNumberToF64_isSome s h
  obtain ⟨t, ht⟩ := Option.isSome_iff_exists.mp hs
  obtain ⟨dps, hdps, hteq⟩ := wasiSumToOtel_eq metricNumberToF64 s t ht
  have hf2 := optionTraverse_forall₂ (sumDataPointToOtel metricNumberToF64)
    s.data_points dps hdps
  have hf2' : List.Forall₂ (fun (o : Otel.SumDataPoint F64) dp =>
      metricNumberToF64 dp.value = some o.value) dps s.data_points :=
    hf2.imp (fun o dp hod => sumDataPointToOtel_value _ dp o hod)
  subst hteq
  refine ⟨{ data_points := dps, start_time := dtToSystemTime s.start_time,
            time := dtToSystemTime s.time, temporality := temporalityToOtel s.temporality,
            is_monotonic := s.is_monotonic }, ?_, ?_, ?_, rfl, rfl⟩
  · simp [metricDataToOtel, ht]
  · exact List.Forall₂.length_eq hf2'
  · exact hf2'

/-- Witness for C8 at a concrete well-formed `F64Sum` payload. -/
theorem f64SumFidelityWitness :
    wfSum isF64Number sumF64sample = true
    ∧ (∃ t : Otel.Sum F64, metricDataToOtel (.f64Sum sumF64sample) = some (.f64Sum t)
        ∧ t.data_points.length = sumF64sample.data_points.length
        ∧ List.Forall₂ (fun (o : Otel.SumDataPoint F64) dp =>
            metricNumberToF64 dp.value = some o.value)
          t.data_points sumF64sample.data_points
        ∧ t.temporality = temporalityToOtel sumF64sample.temporality
        ∧ t.is_monotonic = sumF64sample.is_monotonic) :=
  ⟨by decide, f64SumFidelity sumF64sample (by decide)⟩
